import Mathlib

/-!
Shallow embedding of the `InvestmentEscrow` and `TokenSale` Solidity contracts
of this repository, together with proofs about their state machines.

Modelling conventions:
* Addresses, timestamps and `uint256` values are `Nat` (address zero is `0`;
  all Solidity arithmetic here is checked, so a subtraction that would
  underflow, or a division by zero, is modelled as a revert, i.e. `none`).
* Each external entry point becomes a function `Storage → args → Option Storage`
  (possibly paired with observable outputs); `none` models a revert, and a
  revert leaves no state change by construction, which is exactly the EVM's
  all-or-nothing application of a call.
* External collaborators (fee oracle, escrow factory, ERC20 token balances,
  minter role) are passed in as explicit parameters, since their behaviour is
  not part of this repository's code.
* The contract's own holding of the payment asset is tracked in a `balance`
  field; a value transfer out requires a sufficient balance (EVM/ERC20
  semantics) and decreases it.
-/

namespace Escrow

/-- Escrow status, mirroring `enum Status` of `InvestmentEscrow`. -/
inductive Status where
  | Active
  | Approved
  | PartiallyApproved
  | Rejected
  | Executed
  | Refunded
  | Expired
deriving DecidableEq, Repr

/-- `MAX_ESCROW_DURATION = 30 days` (in seconds). -/
def MAX_ESCROW_DURATION : Nat := 30 * 86400

/-- `ADMIN_ACTION_DEADLINE = 14 days` (in seconds). -/
def ADMIN_ACTION_DEADLINE : Nat := 14 * 86400

/-- The storage of one `InvestmentEscrow` instance, plus the `balance` it
holds in its payment asset and the cumulative amount paid out to the
investor (`investorReceived`, the sum of all `_refund(investor, _)` calls). -/
structure Storage where
  investor : Nat
  tokenSale : Nat
  paymentToken : Nat
  createdAt : Nat
  expirationTime : Nat
  adminDeadline : Nat
  amount : Nat
  tokenAmount : Nat
  status : Status
  rejectionReason : String
  approvedAmount : Nat
  refundedAmount : Nat
  balance : Nat
  investorReceived : Nat
deriving DecidableEq, Repr

/-- The constructor of `InvestmentEscrow`. -/
def mkEscrow (inv sale payTok now : Nat) : Option Storage :=
  if inv ≠ 0 ∧ sale ≠ 0 then
    some { investor := inv
           tokenSale := sale
           paymentToken := payTok
           createdAt := now
           expirationTime := now + MAX_ESCROW_DURATION
           adminDeadline := now + ADMIN_ACTION_DEADLINE
           amount := 0
           tokenAmount := 0
           status := .Active
           rejectionReason := ""
           approvedAmount := 0
           refundedAmount := 0
           balance := 0
           investorReceived := 0 }
  else none

/-- `deposit(uint256 _amount)`: investor-only, Active, unfunded, before the
hard expiration.  For an ETH escrow the deposited amount is `msgValue`; for a
token escrow it is `a` (pulled by `safeTransferFrom`) and `msgValue` must be
zero. -/
def deposit (e : Storage) (sender now msgValue a : Nat) : Option Storage :=
  if sender = e.investor ∧ e.status = .Active ∧ e.amount = 0 ∧ now < e.expirationTime then
    if e.paymentToken = 0 then
      if 0 < msgValue then
        some { e with amount := msgValue, balance := e.balance + msgValue }
      else none
    else
      if 0 < a ∧ msgValue = 0 then
        some { e with amount := a, balance := e.balance + a }
      else none
  else none

/-- `_refund(investor, _amount)`: requires a positive amount, and a transfer
out of the contract requires a sufficient balance (an ETH `call` with too
large a value fails, and `safeTransfer` of an ERC20 reverts). -/
def refundTo (e : Storage) (a : Nat) : Option Storage :=
  if 0 < a ∧ a ≤ e.balance then
    some { e with balance := e.balance - a, investorReceived := e.investorReceived + a }
  else none

/-- `_executePurchase(_amount)`: grants the sale an allowance of exactly `a`
(for a token escrow) and calls `purchaseWithEscrow`, forwarding `a` of the
payment asset (so the escrow must hold at least `a`).  `saleResult` is the
sale call's outcome: `none` if it reverts (then the whole transaction
reverts), `some tok` for the returned token amount.  On success the status
becomes `Executed`. -/
def executePurchase (e : Storage) (a : Nat) (saleResult : Option Nat) : Option Storage :=
  if a ≤ e.balance then
    match saleResult with
    | some tok =>
        some { e with tokenAmount := tok, balance := e.balance - a, status := .Executed }
    | none => none
  else none

/-- `approveAndExecute()`: admin-only, Active with a nonzero amount, before
expiration; records `approvedAmount = amount` and executes the full
purchase. -/
def approveAndExecute (e : Storage) (isAdmin : Bool) (now : Nat)
    (saleResult : Option Nat) : Option Storage :=
  if isAdmin = true ∧ e.status = .Active ∧ 0 < e.amount ∧ now < e.expirationTime then
    executePurchase { e with status := .Approved, approvedAmount := e.amount }
      e.amount saleResult
  else none

/-- `partialApproveAndExecute(uint256 _approvedAmount)`: admin-only, Active
with a nonzero amount, `0 < a < amount`, before expiration; executes a
purchase for `a` and refunds `amount - a` to the investor. -/
def partialApproveAndExecute (e : Storage) (isAdmin : Bool) (now a : Nat)
    (saleResult : Option Nat) : Option Storage :=
  if isAdmin = true ∧ e.status = .Active ∧ 0 < e.amount ∧ 0 < a ∧ a < e.amount ∧
      now < e.expirationTime then
    match executePurchase
        { e with status := .PartiallyApproved, approvedAmount := a,
                 refundedAmount := e.amount - a } a saleResult with
    | some e2 => refundTo e2 (e.amount - a)
    | none => none
  else none

/-- `rejectAndRefund(string _reason)`: admin-only, Active with a nonzero
amount; records the reason, sets `refundedAmount = amount` and refunds the
full amount immediately. -/
def rejectAndRefund (e : Storage) (isAdmin : Bool) (reason : String) : Option Storage :=
  if isAdmin = true ∧ e.status = .Active ∧ 0 < e.amount then
    refundTo { e with status := .Rejected, rejectionReason := reason,
                      refundedAmount := e.amount } e.amount
  else none

/-- `canRefund()`, translated clause by clause. -/
def canRefund (e : Storage) (now : Nat) : Bool :=
  if e.status = .Refunded ∨ e.status = .Executed ∨ e.status = .Expired then false
  else if e.status = .Rejected then true
  else if e.expirationTime ≤ now then true
  else if e.status = .Active ∧ 0 < e.amount ∧ e.adminDeadline ≤ now then true
  else false

/-- `refund()`: callable by anyone when `canRefund()` holds; the source's
three-way status branch (`Active → Expired`, `Rejected → Refunded`, fallback
`→ Refunded`) collapses to the conditional below.  Sets
`refundedAmount = amount` and pays `amount` to the investor via `_refund`. -/
def refund (e : Storage) (now : Nat) : Option Storage :=
  if canRefund e now then
    refundTo { e with status := if e.status = .Active then .Expired else .Refunded,
                      refundedAmount := e.amount } e.amount
  else none

/-- `emergencyWithdraw()`: admin-only, not allowed from `Refunded` or
`Executed`; sweeps the contract's entire balance to the investor and marks
the escrow `Refunded`. -/
def emergencyWithdraw (e : Storage) (isAdmin : Bool) : Option Storage :=
  if isAdmin = true ∧ e.status ≠ .Refunded ∧ e.status ≠ .Executed ∧ 0 < e.balance then
    refundTo { e with status := .Refunded, refundedAmount := e.balance } e.balance
  else none

/-- A state of one escrow instance is reachable when it is produced by the
constructor followed by any sequence of successful entry-point calls. -/
inductive Reachable : Storage → Prop where
  | init : ∀ inv sale payTok now e,
      mkEscrow inv sale payTok now = some e → Reachable e
  | depositStep : ∀ e sender now msgValue a e',
      Reachable e → deposit e sender now msgValue a = some e' → Reachable e'
  | approveStep : ∀ e isAdmin now saleResult e',
      Reachable e → approveAndExecute e isAdmin now saleResult = some e' → Reachable e'
  | partialApproveStep : ∀ e isAdmin now a saleResult e',
      Reachable e → partialApproveAndExecute e isAdmin now a saleResult = some e' →
      Reachable e'
  | rejectStep : ∀ e isAdmin reason e',
      Reachable e → rejectAndRefund e isAdmin reason = some e' → Reachable e'
  | refundStep : ∀ e now e',
      Reachable e → refund e now = some e' → Reachable e'
  | emergencyStep : ∀ e isAdmin e',
      Reachable e → emergencyWithdraw e isAdmin = some e' → Reachable e'

/-- The terminal statuses of the escrow state machine. -/
def terminal (s : Status) : Prop :=
  s = .Executed ∨ s = .Refunded ∨ s = .Expired

/-- Inductive invariant of the escrow: in every resting state the accounting
fields and the held balance are determined by the status. -/
def Inv (e : Storage) : Prop :=
  (e.status = .Active → e.approvedAmount = 0 ∧ e.refundedAmount = 0 ∧ e.balance = e.amount)
  ∧ (e.status = .Rejected →
      e.approvedAmount = 0 ∧ e.refundedAmount = e.amount ∧ e.balance = 0)
  ∧ (e.status = .Executed →
      e.approvedAmount + e.refundedAmount = e.amount ∧ e.balance = 0)
  ∧ (e.status = .Expired →
      e.approvedAmount = 0 ∧ e.refundedAmount = e.amount ∧ e.balance = 0)
  ∧ (e.status = .Refunded →
      e.approvedAmount + e.refundedAmount = e.amount ∧ e.balance = 0)
  ∧ e.status ≠ .Approved ∧ e.status ≠ .PartiallyApproved

end Escrow

namespace Escrow

theorem deposit_inv {e e' : Storage} {sender now msgValue a : Nat}
    (hInv : Inv e) (h : deposit e sender now msgValue a = some e') : Inv e' := by
  unfold deposit at h
  split at h
  case isTrue hg =>
    obtain ⟨hs, hA, h0, _⟩ := hg
    obtain ⟨hAct, _, _, _, _, hnA, hnP⟩ := hInv
    obtain ⟨ha, hr, hb⟩ := hAct hA
    split at h
    · split at h
      · cases h
        simp_all [Inv]
      · exact Option.noConfusion h
    · split at h
      · cases h
        simp_all [Inv]
      · exact Option.noConfusion h
  case isFalse => exact Option.noConfusion h


theorem refundTo_some {e e' : Storage} {a : Nat} (h : refundTo e a = some e') :
    0 < a ∧ a ≤ e.balance ∧
      e' = { e with balance := e.balance - a,
                    investorReceived := e.investorReceived + a } := by
  unfold refundTo at h
  split at h
  case isTrue hg =>
    cases h
    exact ⟨hg.1, hg.2, rfl⟩
  case isFalse => exact Option.noConfusion h

theorem executePurchase_some {e e' : Storage} {a : Nat} {sr : Option Nat}
    (h : executePurchase e a sr = some e') :
    a ≤ e.balance ∧ ∃ tok, sr = some tok ∧
      e' = { e with tokenAmount := tok, balance := e.balance - a,
                    status := .Executed } := by
  unfold executePurchase at h
  split at h
  case isTrue hle =>
    cases sr with
    | some tok =>
        cases h
        exact ⟨hle, tok, rfl, rfl⟩
    | none => exact Option.noConfusion h
  case isFalse => exact Option.noConfusion h

theorem approve_inv {e e' : Storage} {isAdmin : Bool} {now : Nat} {saleResult : Option Nat}
    (hInv : Inv e) (h : approveAndExecute e isAdmin now saleResult = some e') : Inv e' := by
  unfold approveAndExecute at h
  split at h
  case isTrue hg =>
    obtain ⟨_, hA, hamt, _⟩ := hg
    obtain ⟨hAct, _, _, _, _, _, _⟩ := hInv
    obtain ⟨ha, hr, hb⟩ := hAct hA
    obtain ⟨hle, tok, hsr, he'⟩ := executePurchase_some h
    subst he'
    simp_all [Inv]
  case isFalse => exact Option.noConfusion h

theorem partialApprove_inv {e e' : Storage} {isAdmin : Bool} {now a : Nat}
    {saleResult : Option Nat}
    (hInv : Inv e) (h : partialApproveAndExecute e isAdmin now a saleResult = some e') :
    Inv e' := by
  unfold partialApproveAndExecute at h
  split at h
  case isTrue hg =>
    obtain ⟨_, hA, hamt, hpos, hlt, _⟩ := hg
    obtain ⟨hAct, _, _, _, _, _, _⟩ := hInv
    obtain ⟨ha, hr, hb⟩ := hAct hA
    cases hEx : executePurchase
        { e with status := .PartiallyApproved, approvedAmount := a,
                 refundedAmount := e.amount - a } a saleResult with
    | none => rw [hEx] at h; exact Option.noConfusion h
    | some e2 =>
        rw [hEx] at h
        obtain ⟨hle, tok, hsr, he2⟩ := executePurchase_some hEx
        obtain ⟨hpos2, hle2, he'⟩ := refundTo_some h
        subst he2
        subst he'
        simp_all [Inv]
  case isFalse => exact Option.noConfusion h

theorem reject_inv {e e' : Storage} {isAdmin : Bool} {reason : String}
    (hInv : Inv e) (h : rejectAndRefund e isAdmin reason = some e') : Inv e' := by
  unfold rejectAndRefund at h
  split at h
  case isTrue hg =>
    obtain ⟨_, hA, hamt⟩ := hg
    obtain ⟨hAct, _, _, _, _, _, _⟩ := hInv
    obtain ⟨ha, hr, hb⟩ := hAct hA
    obtain ⟨hpos, hle, he'⟩ := refundTo_some h
    subst he'
    simp_all [Inv]
  case isFalse => exact Option.noConfusion h

theorem refund_inv {e e' : Storage} {now : Nat}
    (hInv : Inv e) (h : refund e now = some e') : Inv e' := by
  unfold refund at h
  split at h
  case isTrue hcr =>
    obtain ⟨hpos, hle, he'⟩ := refundTo_some h
    subst he'
    obtain ⟨hAct, hRej, _, _, _, hnA, hnP⟩ := hInv
    cases hst : e.status with
    | Active =>
        obtain ⟨ha, hr, hb⟩ := hAct hst
        simp_all [Inv]
    | Approved => exact absurd hst hnA
    | PartiallyApproved => exact absurd hst hnP
    | Rejected =>
        obtain ⟨ha, hr, hb⟩ := hRej hst
        simp_all
    | Executed => simp [canRefund, hst] at hcr
    | Refunded => simp [canRefund, hst] at hcr
    | Expired => simp [canRefund, hst] at hcr
  case isFalse => exact Option.noConfusion h

theorem emergency_inv {e e' : Storage} {isAdmin : Bool}
    (hInv : Inv e) (h : emergencyWithdraw e isAdmin = some e') : Inv e' := by
  unfold emergencyWithdraw at h
  split at h
  case isTrue hg =>
    obtain ⟨_, hnR, hnE, hbal⟩ := hg
    obtain ⟨hpos, hle, he'⟩ := refundTo_some h
    subst he'
    obtain ⟨hAct, hRej, hExe, hExp, hRef, hnA, hnP⟩ := hInv
    cases hst : e.status with
    | Active =>
        obtain ⟨ha, hr, hb⟩ := hAct hst
        simp_all [Inv]
    | Approved => exact absurd hst hnA
    | PartiallyApproved => exact absurd hst hnP
    | Rejected =>
        obtain ⟨ha, hr, hb⟩ := hRej hst
        simp_all
    | Executed => exact absurd hst hnE
    | Refunded => exact absurd hst hnR
    | Expired =>
        obtain ⟨ha, hr, hb⟩ := hExp hst
        simp_all
  case isFalse => exact Option.noConfusion h

theorem reachable_inv {e : Storage} (h : Reachable e) : Inv e := by
  induction h with
  | init inv sale payTok now e h =>
      unfold mkEscrow at h
      split at h
      · cases h
        simp [Inv]
      · exact Option.noConfusion h
  | depositStep e sender now msgValue a e' _ h ih => exact deposit_inv ih h
  | approveStep e isAdmin now saleResult e' _ h ih => exact approve_inv ih h
  | partialApproveStep e isAdmin now a saleResult e' _ h ih => exact partialApprove_inv ih h
  | rejectStep e isAdmin reason e' _ h ih => exact reject_inv ih h
  | refundStep e now e' _ h ih => exact refund_inv ih h
  | emergencyStep e isAdmin e' _ h ih => exact emergency_inv ih h


/-- A freshly constructed ETH escrow for investor `1`, sale `2`, created at
time `0` (the value of `mkEscrow 1 2 0 0`). -/
def escrowDemo0 : Storage :=
  { investor := 1, tokenSale := 2, paymentToken := 0, createdAt := 0,
    expirationTime := MAX_ESCROW_DURATION, adminDeadline := ADMIN_ACTION_DEADLINE,
    amount := 0, tokenAmount := 0, status := .Active, rejectionReason := "",
    approvedAmount := 0, refundedAmount := 0, balance := 0, investorReceived := 0 }

/-- `escrowDemo0` after the investor deposits 100 wei. -/
def escrowDemo1 : Storage := (deposit escrowDemo0 1 0 100 0).getD escrowDemo0

/-- `escrowDemo1` after the admin fully approves and the sale call returns
40 tokens. -/
def escrowDemo2 : Storage :=
  (approveAndExecute escrowDemo1 true 5 (some 40)).getD escrowDemo0

/-- C2: every reachable escrow state whose status is terminal (`Executed`,
`Refunded` or `Expired`) satisfies `approvedAmount + refundedAmount = amount`.
The operations reaching terminal statuses are `approveAndExecute`,
`partialApproveAndExecute`, `refund` and `emergencyWithdraw`
(`rejectAndRefund` reaches the semi-terminal `Rejected`, which also satisfies
the equation and from which only `refund`/`emergencyWithdraw` can move on). -/
theorem escrow_terminal_accounting (e : Storage) (h : Reachable e)
    (ht : terminal e.status) :
    e.approvedAmount + e.refundedAmount = e.amount := by
  have hInv := reachable_inv h
  obtain ⟨_, _, hExe, hExp, hRef, _, _⟩ := hInv
  rcases ht with hs | hs | hs
  · exact (hExe hs).1
  · exact (hRef hs).1
  · obtain ⟨ha, hr, _⟩ := hExp hs
    omega

/-- Witness for C2: the concrete reachable escrow `escrowDemo2` is in the
terminal status `Executed` and satisfies the accounting equation. -/
theorem escrow_terminal_accounting_witness :
    escrowDemo2.approvedAmount + escrowDemo2.refundedAmount = escrowDemo2.amount :=
  escrow_terminal_accounting escrowDemo2
    (Reachable.approveStep escrowDemo1 true 5 (some 40) escrowDemo2
      (Reachable.depositStep escrowDemo0 1 0 100 0 escrowDemo1
        (Reachable.init 1 2 0 0 escrowDemo0 (by decide))
        (by decide))
      (by decide))
    (Or.inl (by decide))

/-- Counterexample for C7: for a freshly created, never funded escrow whose
hard expiration has passed, `canRefund()` returns true (its expiration clause
does not require a nonzero deposit) yet `refund()` reverts, because
`_refund` requires a positive amount.  So `refund()` does not succeed exactly
when `canRefund()` holds. -/
theorem escrow_refund_iff_canRefund_counterexample :
    mkEscrow 1 2 0 0 = some escrowDemo0 ∧
    canRefund escrowDemo0 MAX_ESCROW_DURATION = true ∧
    refund escrowDemo0 MAX_ESCROW_DURATION = none := by
  refine ⟨by decide, by decide, by decide⟩

/-- C7 (amended): `refund()` succeeds exactly when `canRefund()` holds AND
the deposit is nonzero AND the escrow still holds at least the deposit; on
success the full deposit flows to the investor (`investorReceived` grows by
`amount`, the balance drops by `amount`), `refundedAmount` is set to the
deposit, and the status becomes `Expired` if it was `Active` and `Refunded`
otherwise (in particular if it was `Rejected`). -/
theorem escrow_refund_succeeds_iff (e : Storage) (now : Nat) :
    ((refund e now).isSome = true ↔
      (canRefund e now = true ∧ 0 < e.amount ∧ e.amount ≤ e.balance))
    ∧ ∀ e', refund e now = some e' →
        e'.refundedAmount = e.amount ∧
        e'.balance = e.balance - e.amount ∧
        e'.investorReceived = e.investorReceived + e.amount ∧
        e'.status = (if e.status = .Active then Status.Expired else Status.Refunded) := by
  constructor
  · constructor
    · intro hs
      rw [Option.isSome_iff_exists] at hs
      obtain ⟨e', he'⟩ := hs
      unfold refund at he'
      split at he'
      case isTrue hcr =>
        obtain ⟨hpos, hle, _⟩ := refundTo_some he'
        exact ⟨hcr, hpos, hle⟩
      case isFalse => exact Option.noConfusion he'
    · rintro ⟨hcr, hpos, hle⟩
      unfold refund refundTo
      simp [hcr, hpos, hle]
  · intro e' he'
    unfold refund at he'
    split at he'
    case isTrue hcr =>
      obtain ⟨hpos, hle, heq⟩ := refundTo_some he'
      subst heq
      simp
    case isFalse => exact Option.noConfusion he'

/-- The escrow obtained by letting the admin deadline pass on the funded
escrow `escrowDemo1` and calling `refund()`. -/
def escrowDemo1Refunded : Storage :=
  (refund escrowDemo1 ADMIN_ACTION_DEADLINE).getD escrowDemo0

/-- Witness for the amended C7: on the funded escrow `escrowDemo1`, once the
admin deadline has passed, `refund()` succeeds and pays the full 100 wei
deposit to the investor, marking the escrow `Expired`. -/
theorem escrow_refund_succeeds_iff_witness :
    refund escrowDemo1 ADMIN_ACTION_DEADLINE = some escrowDemo1Refunded ∧
    (escrowDemo1Refunded.refundedAmount = escrowDemo1.amount ∧
     escrowDemo1Refunded.balance = escrowDemo1.balance - escrowDemo1.amount ∧
     escrowDemo1Refunded.investorReceived =
       escrowDemo1.investorReceived + escrowDemo1.amount ∧
     escrowDemo1Refunded.status =
       (if escrowDemo1.status = .Active then Status.Expired else Status.Refunded)) :=
  ⟨by decide,
   (escrow_refund_succeeds_iff escrowDemo1 ADMIN_ACTION_DEADLINE).2
     escrowDemo1Refunded (by decide)⟩

end Escrow

namespace Sale

/-- Sale status, mirroring `enum State` of the `ITGE` interface as used by
`TokenSale.state()`. -/
inductive State where
  | Active
  | Successful
  | Failed
deriving DecidableEq, Repr

/-- The fee oracle environment seen through the two service-contract
interfaces.  Each call either reverts (`none`) or returns a value; addresses
and `bytes32` tenant ids are `Nat`. -/
structure OracleEnv where
  /-- `IServiceContractMinimal.getCommissionRate(1)`. -/
  minRate : Option Nat
  /-- `IServiceContractMinimal.getFeeRecipient(1)`. -/
  minRecipient : Option Nat
  /-- `IServiceContract.getCommissionRate(tenantId, dealType)`. -/
  fullRate : Nat → Nat → Option Nat
  /-- `IServiceContract.getFeeRecipient(tenantId, feeType)`. -/
  fullRecipient : Nat → Nat → Option Nat

/-- The storage of one `TokenSale` instance (ledger and configuration).
ERC20 balances held by other contracts are not part of this storage. -/
structure Storage where
  tokenAddr : Nat
  price : Nat
  hardcap : Nat
  softcap : Nat
  minPurchase : Nat
  maxPurchase : Nat
  lockupPercent : Nat
  lockupTVL : Nat
  lockupDuration : Nat
  duration : Nat
  createdAt : Nat
  totalPurchases : Nat
  serviceContract : Nat
  tenantId : Nat
  totalPurchasesInCurrency : Nat → Nat
  totalParticipants : Nat
  hasParticipated : Nat → Bool
  immediateTransfer : Bool
  paidAmount : Nat → Nat → Nat
  userWhitelist : List Nat
  tokenWhitelist : List Nat
  reservedTokenAmount : Nat
  isUserWhitelisted : Nat → Bool
  isTokenWhitelisted : Nat → Bool
  purchaseOf : Nat → Nat
  lockedBalanceOf : Nat → Nat
  lockupTVLReached : Bool
  owner : Nat
  paused : Bool

/-- Point update of a two-level mapping such as `paidAmount[investor][currency]`. -/
def update2 (m : Nat → Nat → Nat) (a c v : Nat) : Nat → Nat → Nat :=
  Function.update m a (Function.update (m a) c v)

/-- The `TGEInfo` initialization struct (the fields `initialize` reads). -/
structure TGEInfo where
  price : Nat
  hardcap : Nat
  softcap : Nat
  minPurchase : Nat
  maxPurchase : Nat
  lockupPercent : Nat
  lockupTVL : Nat
  lockupDuration : Nat
  duration : Nat
  reservedTokenPercent : Nat
  userWhitelist : List Nat
  tokenWhitelist : List Nat

/-- `initialize(...)`: copies the configuration, sets
`lockupTVLReached = (lockupTVL == 0)`, computes the reserved token amount
(zeroed again if the initial `mint` attempt succeeds, which the `mintOk`
parameter models), records `createdAt = now`, and loads both whitelists
(array push plus membership flag). -/
def initializeSale (owner_ tokenAddr : Nat) (info : TGEInfo)
    (tenantId serviceContract : Nat) (immediateTransfer : Bool)
    (mintOk : Bool) (now : Nat) : Storage :=
  let reservedAmount := if tokenAddr ≠ 0 then info.hardcap * info.reservedTokenPercent / 10000 else 0
  { tokenAddr := tokenAddr
    price := info.price
    hardcap := info.hardcap
    softcap := info.softcap
    minPurchase := info.minPurchase
    maxPurchase := info.maxPurchase
    lockupPercent := info.lockupPercent
    lockupTVL := info.lockupTVL
    lockupDuration := info.lockupDuration
    duration := info.duration
    createdAt := now
    totalPurchases := 0
    serviceContract := serviceContract
    tenantId := tenantId
    totalPurchasesInCurrency := fun _ => 0
    totalParticipants := 0
    hasParticipated := fun _ => false
    immediateTransfer := immediateTransfer
    paidAmount := fun _ _ => 0
    userWhitelist := info.userWhitelist
    tokenWhitelist := info.tokenWhitelist
    reservedTokenAmount := if 0 < reservedAmount ∧ mintOk then 0 else reservedAmount
    isUserWhitelisted := fun a => info.userWhitelist.contains a
    isTokenWhitelisted := fun a => info.tokenWhitelist.contains a
    purchaseOf := fun _ => 0
    lockedBalanceOf := fun _ => 0
    lockupTVLReached := info.lockupTVL = 0
    owner := owner_
    paused := false }

/-- `hasTenantManagerRole()`: false when no service contract is set,
otherwise the caller must be the owner (the source's simplified role check). -/
def hasTenantManagerRole (s : Storage) (sender : Nat) : Bool :=
  if s.serviceContract = 0 then false
  else if sender = s.owner then true else false

/-- `calculatePlatformFee(amount)`, following the source's fallback chain:
the minimal interface first; on its revert, the tenant-aware interface, then
the zero-tenant fallbacks; a fee is charged only when both a positive rate
and a nonzero recipient were resolved.  Returns `(feeAmount, feeRecipient)`. -/
def calculatePlatformFee (env : OracleEnv) (s : Storage) (amount : Nat) : Nat × Nat :=
  if s.serviceContract = 0 then (0, 0)
  else
    let resolved : Nat × Nat :=
      match env.minRate with
      | some r =>
          (r, match env.minRecipient with
              | some recipient => if recipient ≠ 0 then recipient else 0
              | none => 0)
      | none =>
          let viaTenant : Nat × Nat :=
            if s.tenantId ≠ 0 then
              match env.fullRate s.tenantId 1 with
              | some r =>
                  (r, match env.fullRecipient s.tenantId 1 with
                      | some recipient => if recipient ≠ 0 then recipient else 0
                      | none => 0)
              | none => (0, 0)
            else (0, 0)
          let rate2 := if viaTenant.1 = 0 then
              (match env.fullRate 0 1 with
               | some r => r
               | none => 0)
            else viaTenant.1
          let recipient2 := if viaTenant.2 = 0 then
              (match env.fullRecipient 0 0 with
               | some recipient => recipient
               | none => 0)
            else viaTenant.2
          (rate2, recipient2)
    if 0 < resolved.1 ∧ resolved.2 ≠ 0 then
      (amount * resolved.1 / 10000, resolved.2)
    else (0, 0)

/-- `state()`: `Successful` once the hardcap is reached regardless of time;
otherwise `Active` within the duration; otherwise `Successful` when the
softcap is met, else `Failed`. -/
def state (s : Storage) (now : Nat) : State :=
  if s.hardcap ≤ s.totalPurchases then .Successful
  else if now < s.createdAt + s.duration then .Active
  else if s.softcap ≤ s.totalPurchases then .Successful
  else .Failed

/-- `maxPurchaseOf(account) = maxPurchase - purchaseOf[account]` (entry
points guard `purchaseOf[account] ≤ maxPurchase` separately, because the
Solidity 0.8 checked subtraction reverts on underflow). -/
def maxPurchaseOf (s : Storage) (account : Nat) : Nat :=
  s.maxPurchase - s.purchaseOf account

/-- `unlockAvailable()`. -/
def unlockAvailable (s : Storage) (now : Nat) : Bool :=
  s.lockupTVLReached && decide (s.createdAt + s.lockupDuration ≤ now)

/-- `getTVL() = totalPurchases * price / 1e18`. -/
def getTVL (s : Storage) : Nat :=
  s.totalPurchases * s.price / 1000000000000000000

/-- The observable outputs of one purchase: the platform fee charged, its
recipient, the immediately delivered (unlocked) tokens, the newly locked
tokens, and the total token amount sold. -/
structure PurchaseOutcome where
  feeAmount : Nat
  feeRecipient : Nat
  unlockedAmount : Nat
  lockedAmount : Nat
  tokenAmount : Nat
deriving DecidableEq, Repr

/-- Token distribution, identical in `purchase` and `purchaseWithEscrow`:
with the lockup TVL reached the full amount is delivered unlocked, otherwise
`amount * (10000 - lockupPercent) / 10000` is delivered and the rest accrues
to the buyer's locked balance.  Delivery transfers from the contract's token
balance (`tokenBal`) first and mints the shortfall; a shortfall without the
minter role reverts ("TokenSale: missing MINTER_ROLE").  Returns the new
storage, the unlocked amount and the locked amount. -/
def distribute (s : Storage) (buyer amount tokenBal : Nat) (hasMinter : Bool) :
    Option (Storage × Nat × Nat) :=
  if s.lockupTVLReached then
    let transferAmount := min amount tokenBal
    let mintAmount := amount - transferAmount
    if 0 < mintAmount ∧ hasMinter = false then none
    else some (s, amount, 0)
  else
    -- `10000 - lockupPercent` is a checked subtraction
    if 10000 < s.lockupPercent then none
    else
      let unlockedAmount := amount * (10000 - s.lockupPercent) / 10000
      let lockedAmount := amount - unlockedAmount
      let transferUnlocked := min unlockedAmount tokenBal
      let mintUnlocked := unlockedAmount - transferUnlocked
      if 0 < mintUnlocked ∧ hasMinter = false then none
      else
        -- the source's `if (lockedAmount > 0)` guard equals the unconditional add
        let s2 := { s with
          lockedBalanceOf :=
            Function.update s.lockedBalanceOf buyer (s.lockedBalanceOf buyer + lockedAmount) }
        some (s2, unlockedAmount, lockedAmount)


/-- The payment precondition of `purchase`: for the native asset the exact
`msg.value` must be `basePayment + fee` ("Invalid ETH value"); for an ERC20
the sale needs an allowance of at least `basePayment + fee`
("Insufficient allowance"). -/
def directPayOk (currency msgValue allowance total : Nat) : Bool :=
  if currency = 0 then decide (msgValue = total) else decide (total ≤ allowance)

/-- The payment precondition of `purchaseWithEscrow`: for the native asset
`msg.value` must equal the gross payment ("Incorrect ETH amount"); for an
ERC20 no ETH may be attached ("ETH sent for token payment"). -/
def escrowPayOk (paymentToken msgValue paymentAmount : Nat) : Bool :=
  if paymentToken = 0 then decide (msgValue = paymentAmount) else decide (msgValue = 0)

/-- The payment bookkeeping of `purchase`: in vault mode the base payment is
recorded in `paidAmount[sender][currency]`, and `totalPurchasesInCurrency`
grows by the base payment (the fee and owner transfers are external). -/
def purchasePay (s : Storage) (sender currency basePaymentAmount : Nat) : Storage :=
  let s1 :=
    if s.immediateTransfer then s
    else { s with
      paidAmount :=
        update2 s.paidAmount sender currency
          (s.paidAmount sender currency + basePaymentAmount) }
  { s1 with
    totalPurchasesInCurrency :=
      Function.update s1.totalPurchasesInCurrency currency
        (s1.totalPurchasesInCurrency currency + basePaymentAmount) }

/-- The purchase-ledger update shared by both entry points: cumulative
totals, the buyer's purchase record, and first-time-participant tracking. -/
def purchaseRecord (s : Storage) (buyer amount : Nat) : Storage :=
  let s3 := { s with
    totalPurchases := s.totalPurchases + amount,
    purchaseOf := Function.update s.purchaseOf buyer (s.purchaseOf buyer + amount) }
  if s3.hasParticipated buyer then s3
  else { s3 with
    hasParticipated := Function.update s3.hasParticipated buyer true,
    totalParticipants := s3.totalParticipants + 1 }

/-- `purchase(currency, amount)`: direct purchase by `sender`.  Modifiers:
`whenNotPaused`, `onlyWhitelistedUser`, `onlyWhitelistedCurrency`,
`onlyState(Active)`.  The caller pays `basePayment + fee` where
`basePayment = amount * price / 1e18` (exact `msg.value` for ETH, a
sufficient allowance for an ERC20); the fee goes to the fee recipient at
once and the base payment to the owner (immediate mode) or into the vault;
the limit checks are `amount >= minPurchase`, `amount <= maxPurchaseOf(sender)`
and `totalPurchases + amount <= hardcap`, and a failed check reverts the
whole call, fee transfer included.  `tokenBal` is the sale's balance of the
sold token and `hasMinter` whether it holds the minter role. -/
def purchase (s : Storage) (env : OracleEnv) (sender msgValue allowance tokenBal : Nat)
    (hasMinter : Bool) (now : Nat) (currency amount : Nat) :
    Option (Storage × PurchaseOutcome) :=
  if s.paused then none
  else if ¬(s.userWhitelist = [] ∨ s.isUserWhitelisted sender = true) then none
  else if ¬(s.tokenWhitelist = [] ∨ s.isTokenWhitelisted currency = true) then none
  else if state s now ≠ .Active then none
  else
    let basePaymentAmount := amount * s.price / 1000000000000000000  -- 1e18
    let fee := calculatePlatformFee env s basePaymentAmount
    if directPayOk currency msgValue allowance (basePaymentAmount + fee.1) = false then none
    else
      -- fee transferred to fee.2 at once (external), payment bookkeeping:
      let s2 := purchasePay s sender currency basePaymentAmount
      if amount < s2.minPurchase then none                       -- "Below min purchase"
      else if s2.maxPurchase < s2.purchaseOf sender then none    -- checked sub in maxPurchaseOf
      else if maxPurchaseOf s2 sender < amount then none         -- "Exceeds max purchase"
      else if s2.hardcap < s2.totalPurchases + amount then none  -- "Exceeds hardcap"
      else
        let s4 := purchaseRecord s2 sender amount
        match distribute s4 sender amount tokenBal hasMinter with
        | some (s5, unlockedAmount, lockedAmount) =>
            some (s5, { feeAmount := fee.1, feeRecipient := fee.2,
                        unlockedAmount := unlockedAmount, lockedAmount := lockedAmount,
                        tokenAmount := amount })
        | none => none

/-- The payment bookkeeping of `purchaseWithEscrow`: `totalPurchasesInCurrency`
grows by the net payment, and in vault mode the net payment is recorded in
`paidAmount[investor][paymentToken]` (the fee and owner transfers are
external). -/
def escrowPay (s : Storage) (investor paymentToken netPayment : Nat) : Storage :=
  let s1 := { s with
    totalPurchasesInCurrency :=
      Function.update s.totalPurchasesInCurrency paymentToken
        (s.totalPurchasesInCurrency paymentToken + netPayment) }
  if s1.immediateTransfer then s1
  else { s1 with
    paidAmount :=
      update2 s1.paidAmount investor paymentToken
        (s1.paidAmount investor paymentToken + netPayment) }

/-- The tail of `purchaseWithEscrow` after fee and payment validation: the
cumulative limit checks against the computed `tokenAmount`, the ledger
updates, and the token distribution. -/
def escrowPurchaseCore (s : Storage) (investor paymentToken netPayment tokenBal : Nat)
    (hasMinter : Bool) (feeAmount feeRecipient tokenAmount : Nat) :
    Option (Storage × PurchaseOutcome) :=
  if s.purchaseOf investor + tokenAmount < s.minPurchase then none
  else if s.maxPurchase < s.purchaseOf investor + tokenAmount then none
  else if s.hardcap < s.totalPurchases + tokenAmount then none
  else
    let s2 := purchaseRecord s investor tokenAmount
    let s3 := escrowPay s2 investor paymentToken netPayment
    match distribute s3 investor tokenAmount tokenBal hasMinter with
    | some (s4, unlockedAmount, lockedAmount) =>
        some (s4, { feeAmount := feeAmount, feeRecipient := feeRecipient,
                    unlockedAmount := unlockedAmount, lockedAmount := lockedAmount,
                    tokenAmount := tokenAmount })
    | none => none

/-- `purchaseWithEscrow(investor, paymentAmount, paymentToken)`: called by a
factory-certified escrow (`escrowValid` models the `investmentEscrowFactory`
lookup together with `isValidEscrow(msg.sender)`).  The gross payment is
fixed, so `netPayment = paymentAmount - fee` is computed first (checked
subtraction), must be strictly positive, and
`tokenAmount = netPayment * 1e18 / price`; the limit checks are cumulative:
`purchaseOf[investor] + tokenAmount` within `[minPurchase, maxPurchase]` and
`totalPurchases + tokenAmount <= hardcap`.  The ledger writes (purchase
records, participant tracking, currency totals, vault record) are composed
from the same helpers as `purchase`; they touch disjoint fields, so their
order does not matter.  Returns the updated storage and the outcome carrying
the returned `tokenAmount`. -/
def purchaseWithEscrow (s : Storage) (env : OracleEnv) (escrowValid : Bool)
    (msgValue tokenBal : Nat) (hasMinter : Bool) (now : Nat)
    (investor paymentAmount paymentToken : Nat) :
    Option (Storage × PurchaseOutcome) :=
  if s.paused then none
  else if escrowValid = false then none                         -- "Invalid escrow"
  else if ¬(s.tokenWhitelist = [] ∨ s.isTokenWhitelisted paymentToken = true) then none
  else if state s now ≠ .Active then none                       -- "Sale not active"
  else
    let fee := calculatePlatformFee env s paymentAmount
    if paymentAmount < fee.1 then none                          -- checked subtraction
    else
      let netPayment := paymentAmount - fee.1
      if netPayment = 0 then none          -- "Net payment is zero after fee deduction"
      else
        if escrowPayOk paymentToken msgValue paymentAmount = false then none
        else if s.price = 0 then none                           -- division by zero reverts
        else
          escrowPurchaseCore s investor paymentToken netPayment tokenBal hasMinter
            fee.1 fee.2 (netPayment * 1000000000000000000 / s.price)  -- 1e18

/-- `unlock()`: requires `unlockAvailable()` and a nonzero locked balance;
zeroes the caller's locked balance and transfers the tokens. -/
def unlock (s : Storage) (sender now : Nat) : Option Storage :=
  if unlockAvailable s now = true ∧ 0 < s.lockedBalanceOf sender then
    some { s with lockedBalanceOf := Function.update s.lockedBalanceOf sender 0 }
  else none

/-- `claimBack(currency)`: requires the computed status `Failed`, vault mode
(`immediateTransfer = false`) and a nonzero recorded paid amount for this
currency; zeroes that paid amount and the caller's purchase and locked
balance records (the source's `if (.. > 0)` guards equal the unconditional
writes) and refunds the paid amount.  The legacy zero-argument `claimBack()`
is this function at `currency = 0`. -/
def claimBack (s : Storage) (sender now currency : Nat) : Option Storage :=
  if state s now ≠ .Failed then none
  else if s.immediateTransfer then none
  else if s.paidAmount sender currency = 0 then none
  else
    some { s with
      paidAmount := update2 s.paidAmount sender currency 0,
      purchaseOf := Function.update s.purchaseOf sender 0,
      lockedBalanceOf := Function.update s.lockedBalanceOf sender 0 }

/-- `setLockupTVLReachedForced(force)`: owner-gated; without `force` it
requires the TVL to be reached; sets the flag to true. -/
def setLockupTVLReachedForced (s : Storage) (sender : Nat) (force : Bool) : Option Storage :=
  if sender = s.owner then
    if force = false ∧ getTVL s < s.lockupTVL then none
    else some { s with lockupTVLReached := true }
  else none

/-- `setLockupTVLReached()`: owner-gated; requires the TVL to be reached. -/
def setLockupTVLReached (s : Storage) (sender : Nat) : Option Storage :=
  if sender = s.owner ∧ s.lockupTVL ≤ getTVL s then
    some { s with lockupTVLReached := true }
  else none

/-- `MAX_WHITELIST_BATCH = 100`. -/
def MAX_WHITELIST_BATCH : Nat := 100

/-- The loop body of `addToUserWhitelist`: push each not-yet-whitelisted
user and set its flag. -/
def addUsersLoop : Storage → List Nat → Storage
  | s, [] => s
  | s, u :: rest =>
      addUsersLoop
        (if s.isUserWhitelisted u then s
         else { s with
           userWhitelist := s.userWhitelist ++ [u],
           isUserWhitelisted := Function.update s.isUserWhitelisted u true })
        rest

/-- `addToUserWhitelist(users)`: owner-gated, batch capped at
`MAX_WHITELIST_BATCH`. -/
def addToUserWhitelist (s : Storage) (sender : Nat) (users : List Nat) : Option Storage :=
  if sender = s.owner then
    if MAX_WHITELIST_BATCH < users.length then none  -- "Batch size exceeds limit"
    else some (addUsersLoop s users)
  else none

/-- The loop body of `removeFromUserWhitelist`: clear each flag (the array
is not touched). -/
def removeUsersLoop : Storage → List Nat → Storage
  | s, [] => s
  | s, u :: rest =>
      removeUsersLoop
        { s with isUserWhitelisted := Function.update s.isUserWhitelisted u false } rest

/-- `removeFromUserWhitelist(users)`: owner-gated; the source has no batch
size check on removal. -/
def removeFromUserWhitelist (s : Storage) (sender : Nat) (users : List Nat) :
    Option Storage :=
  if sender = s.owner then some (removeUsersLoop s users)
  else none

/-- The loop body of `addToTokenWhitelist`. -/
def addTokensLoop : Storage → List Nat → Storage
  | s, [] => s
  | s, t :: rest =>
      addTokensLoop
        (if s.isTokenWhitelisted t then s
         else { s with
           tokenWhitelist := s.tokenWhitelist ++ [t],
           isTokenWhitelisted := Function.update s.isTokenWhitelisted t true })
        rest

/-- `addToTokenWhitelist(tokens)`: owner-gated, batch capped at
`MAX_WHITELIST_BATCH`. -/
def addToTokenWhitelist (s : Storage) (sender : Nat) (tokens : List Nat) : Option Storage :=
  if sender = s.owner then
    if MAX_WHITELIST_BATCH < tokens.length then none  -- "Batch size exceeds limit"
    else some (addTokensLoop s tokens)
  else none

/-- The loop body of `removeFromTokenWhitelist`. -/
def removeTokensLoop : Storage → List Nat → Storage
  | s, [] => s
  | s, t :: rest =>
      removeTokensLoop
        { s with isTokenWhitelisted := Function.update s.isTokenWhitelisted t false } rest

/-- `removeFromTokenWhitelist(tokens)`: owner-gated; the source has no batch
size check on removal. -/
def removeFromTokenWhitelist (s : Storage) (sender : Nat) (tokens : List Nat) :
    Option Storage :=
  if sender = s.owner then some (removeTokensLoop s tokens)
  else none

/-- `pause()`: owner-gated; OZ `_pause` requires the contract not paused. -/
def pause (s : Storage) (sender : Nat) : Option Storage :=
  if sender = s.owner ∧ s.paused = false then some { s with paused := true } else none

/-- `unpause()`: owner-gated; OZ `_unpause` requires the contract paused. -/
def unpause (s : Storage) (sender : Nat) : Option Storage :=
  if sender = s.owner ∧ s.paused = true then some { s with paused := false } else none

/-- `transferFunds(currency)`: owner-gated, requires status `Successful`;
sweeps the held balance of `currency` to the owner (no ledger change). -/
def transferFunds (s : Storage) (sender now _currency : Nat) : Option Storage :=
  if sender = s.owner ∧ state s now = .Successful then some s else none

/-- `setReservedTokenAmount(amount)`: `onlyOwner`. -/
def setReservedTokenAmount (s : Storage) (sender amount : Nat) : Option Storage :=
  if sender = s.owner then some { s with reservedTokenAmount := amount } else none

/-- `mintReservedTokens()`: owner-gated, requires a nonzero reserved amount;
zeroes it when the mint succeeds (`mintOk`), otherwise returns false and
leaves the storage unchanged. -/
def mintReservedTokens (s : Storage) (sender : Nat) (mintOk : Bool) : Option Storage :=
  if sender = s.owner ∧ 0 < s.reservedTokenAmount then
    if mintOk then some { s with reservedTokenAmount := 0 } else some s
  else none

/-- `setServiceContract(serviceContract_)`: allowed while unset, afterwards
only with the tenant-manager role; the new address must be nonzero. -/
def setServiceContract (s : Storage) (sender sc : Nat) : Option Storage :=
  if (s.serviceContract = 0 ∨ hasTenantManagerRole s sender = true) ∧ sc ≠ 0 then
    some { s with serviceContract := sc }
  else none

/-- `setTenantId(_tenantId)`: owner-gated. -/
def setTenantId (s : Storage) (sender tid : Nat) : Option Storage :=
  if sender = s.owner then some { s with tenantId := tid } else none


/-- A sale storage is reachable when it is produced by `initialize` followed
by any sequence of successful entry-point calls (purchases, unlock,
claim-back and the administrative operations). -/
inductive Reachable : Storage → Prop where
  | init : ∀ owner_ tokenAddr info tenantId serviceContract immediate mintOk now,
      Reachable (initializeSale owner_ tokenAddr info tenantId serviceContract immediate mintOk now)
  | purchaseStep :
      ∀ s env sender msgValue allowance tokenBal hasMinter now currency amount r,
      Reachable s →
      purchase s env sender msgValue allowance tokenBal hasMinter now currency amount = some r →
      Reachable r.1
  | escrowPurchaseStep :
      ∀ s env escrowValid msgValue tokenBal hasMinter now investor paymentAmount paymentToken r,
      Reachable s →
      purchaseWithEscrow s env escrowValid msgValue tokenBal hasMinter now investor
        paymentAmount paymentToken = some r →
      Reachable r.1
  | unlockStep : ∀ s sender now s',
      Reachable s → unlock s sender now = some s' → Reachable s'
  | claimBackStep : ∀ s sender now currency s',
      Reachable s → claimBack s sender now currency = some s' → Reachable s'
  | setForcedStep : ∀ s sender force s',
      Reachable s → setLockupTVLReachedForced s sender force = some s' → Reachable s'
  | setTVLStep : ∀ s sender s',
      Reachable s → setLockupTVLReached s sender = some s' → Reachable s'
  | addUserStep : ∀ s sender users s',
      Reachable s → addToUserWhitelist s sender users = some s' → Reachable s'
  | removeUserStep : ∀ s sender users s',
      Reachable s → removeFromUserWhitelist s sender users = some s' → Reachable s'
  | addTokenStep : ∀ s sender tokens s',
      Reachable s → addToTokenWhitelist s sender tokens = some s' → Reachable s'
  | removeTokenStep : ∀ s sender tokens s',
      Reachable s → removeFromTokenWhitelist s sender tokens = some s' → Reachable s'
  | pauseStep : ∀ s sender s',
      Reachable s → pause s sender = some s' → Reachable s'
  | unpauseStep : ∀ s sender s',
      Reachable s → unpause s sender = some s' → Reachable s'
  | transferFundsStep : ∀ s sender now currency s',
      Reachable s → transferFunds s sender now currency = some s' → Reachable s'
  | setReservedStep : ∀ s sender amount s',
      Reachable s → setReservedTokenAmount s sender amount = some s' → Reachable s'
  | mintReservedStep : ∀ s sender mintOk s',
      Reachable s → mintReservedTokens s sender mintOk = some s' → Reachable s'
  | setServiceStep : ∀ s sender sc s',
      Reachable s → setServiceContract s sender sc = some s' → Reachable s'
  | setTenantStep : ∀ s sender tid s',
      Reachable s → setTenantId s sender tid = some s' → Reachable s'

theorem distribute_spec {s s' : Storage} {buyer amount tokenBal : Nat} {hasMinter : Bool}
    {u l : Nat}
    (h : distribute s buyer amount tokenBal hasMinter = some (s', u, l)) :
    s' = { s with lockedBalanceOf :=
            Function.update s.lockedBalanceOf buyer (s.lockedBalanceOf buyer + l) } ∧
    u + l = amount ∧
    (s.lockupTVLReached = true → l = 0 ∧ u = amount) := by
  unfold distribute at h
  dsimp only at h
  split at h
  case isTrue hR =>
    split at h
    · exact Option.noConfusion h
    · simp only [Option.some.injEq, Prod.mk.injEq] at h
      obtain ⟨hs, hu, hl⟩ := h
      subst hs
      subst hu
      subst hl
      refine ⟨?_, by omega, fun _ => ⟨rfl, rfl⟩⟩
      simp
  case isFalse hR =>
    split at h
    · exact Option.noConfusion h
    case isFalse hp =>
      split at h
      · exact Option.noConfusion h
      · simp only [Option.some.injEq, Prod.mk.injEq] at h
        obtain ⟨hs, hu, hl⟩ := h
        subst hs
        subst hu
        subst hl
        have hle : amount * (10000 - s.lockupPercent) / 10000 ≤ amount := by
          have h1 : amount * (10000 - s.lockupPercent) ≤ amount * 10000 :=
            Nat.mul_le_mul_left amount (by omega)
          have h2 : amount * (10000 - s.lockupPercent) / 10000 ≤ amount * 10000 / 10000 :=
            Nat.div_le_div_right h1
          simpa using h2
        refine ⟨rfl, by omega, ?_⟩
        intro hRt
        simp [hRt] at hR



theorem purchasePay_fields (s : Storage) (sender currency b : Nat) :
    (purchasePay s sender currency b).totalPurchases = s.totalPurchases ∧
    (purchasePay s sender currency b).purchaseOf = s.purchaseOf ∧
    (purchasePay s sender currency b).lockedBalanceOf = s.lockedBalanceOf ∧
    (purchasePay s sender currency b).hardcap = s.hardcap ∧
    (purchasePay s sender currency b).softcap = s.softcap ∧
    (purchasePay s sender currency b).minPurchase = s.minPurchase ∧
    (purchasePay s sender currency b).maxPurchase = s.maxPurchase ∧
    (purchasePay s sender currency b).createdAt = s.createdAt ∧
    (purchasePay s sender currency b).duration = s.duration ∧
    (purchasePay s sender currency b).lockupTVL = s.lockupTVL ∧
    (purchasePay s sender currency b).lockupDuration = s.lockupDuration ∧
    (purchasePay s sender currency b).lockupTVLReached = s.lockupTVLReached ∧
    (purchasePay s sender currency b).lockupPercent = s.lockupPercent ∧
    (purchasePay s sender currency b).price = s.price ∧
    (purchasePay s sender currency b).immediateTransfer = s.immediateTransfer ∧
    (purchasePay s sender currency b).hasParticipated = s.hasParticipated := by
  unfold purchasePay
  dsimp only
  split <;> simp

theorem purchaseRecord_fields (s : Storage) (buyer amount : Nat) :
    (purchaseRecord s buyer amount).totalPurchases = s.totalPurchases + amount ∧
    (purchaseRecord s buyer amount).purchaseOf
      = Function.update s.purchaseOf buyer (s.purchaseOf buyer + amount) ∧
    (purchaseRecord s buyer amount).lockedBalanceOf = s.lockedBalanceOf ∧
    (purchaseRecord s buyer amount).hardcap = s.hardcap ∧
    (purchaseRecord s buyer amount).softcap = s.softcap ∧
    (purchaseRecord s buyer amount).minPurchase = s.minPurchase ∧
    (purchaseRecord s buyer amount).maxPurchase = s.maxPurchase ∧
    (purchaseRecord s buyer amount).createdAt = s.createdAt ∧
    (purchaseRecord s buyer amount).duration = s.duration ∧
    (purchaseRecord s buyer amount).lockupTVL = s.lockupTVL ∧
    (purchaseRecord s buyer amount).lockupDuration = s.lockupDuration ∧
    (purchaseRecord s buyer amount).lockupTVLReached = s.lockupTVLReached ∧
    (purchaseRecord s buyer amount).lockupPercent = s.lockupPercent ∧
    (purchaseRecord s buyer amount).price = s.price ∧
    (purchaseRecord s buyer amount).immediateTransfer = s.immediateTransfer ∧
    (purchaseRecord s buyer amount).paidAmount = s.paidAmount := by
  unfold purchaseRecord
  dsimp only
  split <;> simp

theorem escrowPay_fields (s : Storage) (investor paymentToken netPayment : Nat) :
    (escrowPay s investor paymentToken netPayment).totalPurchases = s.totalPurchases ∧
    (escrowPay s investor paymentToken netPayment).purchaseOf = s.purchaseOf ∧
    (escrowPay s investor paymentToken netPayment).lockedBalanceOf = s.lockedBalanceOf ∧
    (escrowPay s investor paymentToken netPayment).hardcap = s.hardcap ∧
    (escrowPay s investor paymentToken netPayment).softcap = s.softcap ∧
    (escrowPay s investor paymentToken netPayment).minPurchase = s.minPurchase ∧
    (escrowPay s investor paymentToken netPayment).maxPurchase = s.maxPurchase ∧
    (escrowPay s investor paymentToken netPayment).createdAt = s.createdAt ∧
    (escrowPay s investor paymentToken netPayment).duration = s.duration ∧
    (escrowPay s investor paymentToken netPayment).lockupTVL = s.lockupTVL ∧
    (escrowPay s investor paymentToken netPayment).lockupDuration = s.lockupDuration ∧
    (escrowPay s investor paymentToken netPayment).lockupTVLReached = s.lockupTVLReached ∧
    (escrowPay s investor paymentToken netPayment).lockupPercent = s.lockupPercent ∧
    (escrowPay s investor paymentToken netPayment).price = s.price ∧
    (escrowPay s investor paymentToken netPayment).immediateTransfer = s.immediateTransfer := by
  unfold escrowPay
  dsimp only
  split <;> simp


theorem purchase_spec {s : Storage} {env : OracleEnv}
    {sender msgValue allowance tokenBal : Nat} {hasMinter : Bool}
    {now currency amount : Nat} {r : Storage × PurchaseOutcome}
    (h : purchase s env sender msgValue allowance tokenBal hasMinter now currency amount
          = some r) :
    state s now = .Active ∧ s.paused = false ∧
    s.minPurchase ≤ amount ∧
    s.purchaseOf sender + amount ≤ s.maxPurchase ∧
    s.totalPurchases + amount ≤ s.hardcap ∧
    r.1.totalPurchases = s.totalPurchases + amount ∧
    r.1.purchaseOf = Function.update s.purchaseOf sender (s.purchaseOf sender + amount) ∧
    r.1.lockedBalanceOf = Function.update s.lockedBalanceOf sender
      (s.lockedBalanceOf sender + r.2.lockedAmount) ∧
    r.2.unlockedAmount + r.2.lockedAmount = amount ∧
    r.2.tokenAmount = amount ∧
    (s.lockupTVLReached = true → r.2.lockedAmount = 0 ∧ r.2.unlockedAmount = amount) ∧
    r.1.hardcap = s.hardcap ∧ r.1.softcap = s.softcap ∧
    r.1.minPurchase = s.minPurchase ∧ r.1.maxPurchase = s.maxPurchase ∧
    r.1.createdAt = s.createdAt ∧ r.1.duration = s.duration ∧
    r.1.lockupTVL = s.lockupTVL ∧ r.1.lockupDuration = s.lockupDuration ∧
    r.1.lockupTVLReached = s.lockupTVLReached ∧
    r.1.price = s.price ∧ r.1.immediateTransfer = s.immediateTransfer := by
  unfold purchase at h
  dsimp only at h
  split at h
  case isTrue => exact Option.noConfusion h
  case isFalse hPaused =>
  split at h
  case isTrue => exact Option.noConfusion h
  split at h
  case isTrue => exact Option.noConfusion h
  split at h
  case isTrue => exact Option.noConfusion h
  case isFalse hActive =>
  split at h
  case isTrue => exact Option.noConfusion h
  case isFalse hPay =>
  split at h
  case isTrue => exact Option.noConfusion h
  case isFalse hMin =>
  split at h
  case isTrue => exact Option.noConfusion h
  case isFalse hMaxPo =>
  split at h
  case isTrue => exact Option.noConfusion h
  case isFalse hMax =>
  split at h
  case isTrue => exact Option.noConfusion h
  case isFalse hHard =>
  split at h
  case h_2 => exact Option.noConfusion h
  case h_1 s5 u l heq =>
  simp only [Option.some.injEq] at h
  subst h
  obtain ⟨hs5, hul, hflag⟩ := distribute_spec heq
  subst hs5
  obtain ⟨hp1, hp2, hp3, hp4, hp5, hp6, hp7, hp8, hp9, hp10, hp11, hp12, hp13, hp14,
    hp15, hp16⟩ :=
    purchasePay_fields s sender currency (amount * s.price / 1000000000000000000)
  obtain ⟨hr1, hr2, hr3, hr4, hr5, hr6, hr7, hr8, hr9, hr10, hr11, hr12, hr13, hr14,
    hr15, hr16⟩ :=
    purchaseRecord_fields (purchasePay s sender currency
      (amount * s.price / 1000000000000000000)) sender amount
  rw [hp6] at hMin
  rw [hp7, hp2] at hMaxPo
  unfold maxPurchaseOf at hMax
  rw [hp7, hp2] at hMax
  rw [hp4, hp1] at hHard
  refine ⟨by simpa using hActive, by simpa using hPaused, by omega, by omega, by omega,
    ?_, ?_, ?_, ?_, rfl, ?_, ?_, ?_, ?_, ?_, ?_, ?_, ?_, ?_, ?_, ?_, ?_⟩
  · dsimp only
    rw [hr1, hp1]
  · dsimp only
    rw [hr2, hp2]
  · dsimp only
    rw [hr3, hp3]
  · dsimp only
    omega
  · intro hRt
    refine hflag ?_
    rw [hr12, hp12]
    exact hRt
  · dsimp only
    rw [hr4, hp4]
  · dsimp only
    rw [hr5, hp5]
  · dsimp only
    rw [hr6, hp6]
  · dsimp only
    rw [hr7, hp7]
  · dsimp only
    rw [hr8, hp8]
  · dsimp only
    rw [hr9, hp9]
  · dsimp only
    rw [hr10, hp10]
  · dsimp only
    rw [hr11, hp11]
  · dsimp only
    rw [hr12, hp12]
  · dsimp only
    rw [hr14, hp14]
  · dsimp only
    rw [hr15, hp15]


theorem escrowPurchaseCore_spec {s : Storage}
    {investor paymentToken netPayment tokenBal : Nat} {hasMinter : Bool}
    {feeAmount feeRecipient tokenAmount : Nat} {r : Storage × PurchaseOutcome}
    (h : escrowPurchaseCore s investor paymentToken netPayment tokenBal hasMinter
          feeAmount feeRecipient tokenAmount = some r) :
    r.2.feeAmount = feeAmount ∧
    r.2.tokenAmount = tokenAmount ∧
    s.minPurchase ≤ s.purchaseOf investor + tokenAmount ∧
    s.purchaseOf investor + tokenAmount ≤ s.maxPurchase ∧
    s.totalPurchases + tokenAmount ≤ s.hardcap ∧
    r.1.totalPurchases = s.totalPurchases + tokenAmount ∧
    r.1.purchaseOf = Function.update s.purchaseOf investor
      (s.purchaseOf investor + tokenAmount) ∧
    r.1.lockedBalanceOf = Function.update s.lockedBalanceOf investor
      (s.lockedBalanceOf investor + r.2.lockedAmount) ∧
    r.2.unlockedAmount + r.2.lockedAmount = tokenAmount ∧
    (s.lockupTVLReached = true → r.2.lockedAmount = 0 ∧ r.2.unlockedAmount = tokenAmount) ∧
    r.1.hardcap = s.hardcap ∧ r.1.softcap = s.softcap ∧
    r.1.minPurchase = s.minPurchase ∧ r.1.maxPurchase = s.maxPurchase ∧
    r.1.createdAt = s.createdAt ∧ r.1.duration = s.duration ∧
    r.1.lockupTVL = s.lockupTVL ∧ r.1.lockupDuration = s.lockupDuration ∧
    r.1.lockupTVLReached = s.lockupTVLReached ∧
    r.1.price = s.price ∧ r.1.immediateTransfer = s.immediateTransfer := by
  unfold escrowPurchaseCore at h
  dsimp only at h
  split at h
  case isTrue => exact Option.noConfusion h
  case isFalse hMin =>
  split at h
  case isTrue => exact Option.noConfusion h
  case isFalse hMax =>
  split at h
  case isTrue => exact Option.noConfusion h
  case isFalse hHard =>
  split at h
  case h_2 => exact Option.noConfusion h
  case h_1 s4 u l heq =>
  simp only [Option.some.injEq] at h
  subst h
  obtain ⟨hs4, hul, hflag⟩ := distribute_spec heq
  subst hs4
  obtain ⟨hr1, hr2, hr3, hr4, hr5, hr6, hr7, hr8, hr9, hr10, hr11, hr12, hr13, hr14,
    hr15, hr16⟩ := purchaseRecord_fields s investor tokenAmount
  obtain ⟨he1, he2, he3, he4, he5, he6, he7, he8, he9, he10, he11, he12, he13, he14,
    he15⟩ :=
    escrowPay_fields (purchaseRecord s investor tokenAmount) investor paymentToken
      netPayment
  refine ⟨rfl, rfl, by omega, by omega, by omega,
    ?_, ?_, ?_, by dsimp only; omega, ?_,
    ?_, ?_, ?_, ?_, ?_, ?_, ?_, ?_, ?_, ?_, ?_⟩
  · dsimp only
    rw [he1, hr1]
  · dsimp only
    rw [he2, hr2]
  · dsimp only
    rw [he3, hr3]
  · intro hRt
    refine hflag ?_
    rw [he12, hr12]
    exact hRt
  · dsimp only
    rw [he4, hr4]
  · dsimp only
    rw [he5, hr5]
  · dsimp only
    rw [he6, hr6]
  · dsimp only
    rw [he7, hr7]
  · dsimp only
    rw [he8, hr8]
  · dsimp only
    rw [he9, hr9]
  · dsimp only
    rw [he10, hr10]
  · dsimp only
    rw [he11, hr11]
  · dsimp only
    rw [he12, hr12]
  · dsimp only
    rw [he14, hr14]
  · dsimp only
    rw [he15, hr15]

theorem purchaseWithEscrow_spec {s : Storage} {env : OracleEnv} {escrowValid : Bool}
    {msgValue tokenBal : Nat} {hasMinter : Bool}
    {now investor paymentAmount paymentToken : Nat} {r : Storage × PurchaseOutcome}
    (h : purchaseWithEscrow s env escrowValid msgValue tokenBal hasMinter now investor
          paymentAmount paymentToken = some r) :
    state s now = .Active ∧ s.paused = false ∧
    (calculatePlatformFee env s paymentAmount).1 < paymentAmount ∧
    r.2.feeAmount = (calculatePlatformFee env s paymentAmount).1 ∧
    r.2.tokenAmount = (paymentAmount - (calculatePlatformFee env s paymentAmount).1)
        * 1000000000000000000 / s.price ∧
    s.minPurchase ≤ s.purchaseOf investor + r.2.tokenAmount ∧
    s.purchaseOf investor + r.2.tokenAmount ≤ s.maxPurchase ∧
    s.totalPurchases + r.2.tokenAmount ≤ s.hardcap ∧
    r.1.totalPurchases = s.totalPurchases + r.2.tokenAmount ∧
    r.1.purchaseOf = Function.update s.purchaseOf investor
      (s.purchaseOf investor + r.2.tokenAmount) ∧
    r.1.lockedBalanceOf = Function.update s.lockedBalanceOf investor
      (s.lockedBalanceOf investor + r.2.lockedAmount) ∧
    r.2.unlockedAmount + r.2.lockedAmount = r.2.tokenAmount ∧
    (s.lockupTVLReached = true →
      r.2.lockedAmount = 0 ∧ r.2.unlockedAmount = r.2.tokenAmount) ∧
    r.1.hardcap = s.hardcap ∧ r.1.softcap = s.softcap ∧
    r.1.minPurchase = s.minPurchase ∧ r.1.maxPurchase = s.maxPurchase ∧
    r.1.createdAt = s.createdAt ∧ r.1.duration = s.duration ∧
    r.1.lockupTVL = s.lockupTVL ∧ r.1.lockupDuration = s.lockupDuration ∧
    r.1.lockupTVLReached = s.lockupTVLReached ∧
    r.1.price = s.price ∧ r.1.immediateTransfer = s.immediateTransfer := by
  unfold purchaseWithEscrow at h
  dsimp only at h
  split at h
  case isTrue => exact Option.noConfusion h
  case isFalse hPaused =>
  split at h
  case isTrue => exact Option.noConfusion h
  split at h
  case isTrue => exact Option.noConfusion h
  split at h
  case isTrue => exact Option.noConfusion h
  case isFalse hActive =>
  split at h
  case isTrue => exact Option.noConfusion h
  case isFalse hFee =>
  split at h
  case isTrue => exact Option.noConfusion h
  case isFalse hNet =>
  split at h
  case isTrue => exact Option.noConfusion h
  split at h
  case isTrue => exact Option.noConfusion h
  obtain ⟨hc1, hc2, hc3, hc4, hc5, hc6, hc7, hc8, hc9, hc10, hc11, hc12, hc13, hc14,
    hc15, hc16, hc17, hc18, hc19, hc20, hc21⟩ := escrowPurchaseCore_spec h
  exact ⟨by simpa using hActive, by simpa using hPaused, by omega, hc1,
    by rw [hc2], by rw [hc2]; exact hc3, by rw [hc2]; exact hc4, by rw [hc2]; exact hc5,
    by rw [hc2]; exact hc6, by rw [hc2]; exact hc7, hc8, by rw [hc2]; exact hc9,
    fun hR => ⟨(hc10 hR).1, by rw [hc2]; exact (hc10 hR).2⟩,
    hc11, hc12, hc13, hc14, hc15, hc16, hc17, hc18, hc19, hc20, hc21⟩


theorem unlock_spec {s s' : Storage} {sender now : Nat}
    (h : unlock s sender now = some s') :
    unlockAvailable s now = true ∧ 0 < s.lockedBalanceOf sender ∧
    s' = { s with lockedBalanceOf := Function.update s.lockedBalanceOf sender 0 } := by
  unfold unlock at h
  split at h
  case isTrue hg =>
    cases h
    exact ⟨hg.1, hg.2, rfl⟩
  case isFalse => exact Option.noConfusion h

theorem claimBack_spec {s s' : Storage} {sender now currency : Nat}
    (h : claimBack s sender now currency = some s') :
    state s now = .Failed ∧ s.immediateTransfer = false ∧
    0 < s.paidAmount sender currency ∧
    s' = { s with paidAmount := update2 s.paidAmount sender currency 0,
                  purchaseOf := Function.update s.purchaseOf sender 0,
                  lockedBalanceOf := Function.update s.lockedBalanceOf sender 0 } := by
  unfold claimBack at h
  split at h
  case isTrue => exact Option.noConfusion h
  case isFalse hSt =>
  split at h
  case isTrue => exact Option.noConfusion h
  case isFalse hIm =>
  split at h
  case isTrue => exact Option.noConfusion h
  case isFalse hPaid =>
  cases h
  refine ⟨by simpa using hSt, by simpa using hIm, by omega, rfl⟩

/-- Equality of every configuration and purchase-ledger field an
administrative operation leaves untouched (all but the whitelists, the
`lockupTVLReached` flag, pausing, and the service/tenant/reserved fields). -/
def SameCore (s t : Storage) : Prop :=
  t.totalPurchases = s.totalPurchases ∧ t.purchaseOf = s.purchaseOf ∧
  t.lockedBalanceOf = s.lockedBalanceOf ∧ t.paidAmount = s.paidAmount ∧
  t.hardcap = s.hardcap ∧ t.softcap = s.softcap ∧ t.minPurchase = s.minPurchase ∧
  t.maxPurchase = s.maxPurchase ∧ t.createdAt = s.createdAt ∧ t.duration = s.duration ∧
  t.lockupTVL = s.lockupTVL ∧ t.lockupDuration = s.lockupDuration ∧
  t.price = s.price ∧ t.immediateTransfer = s.immediateTransfer

theorem addUsersLoop_fields : ∀ (l : List Nat) (s : Storage),
    SameCore s (addUsersLoop s l) ∧
    (addUsersLoop s l).lockupTVLReached = s.lockupTVLReached
  | [], s => by simp [addUsersLoop, SameCore]
  | u :: rest, s => by
      have ih := addUsersLoop_fields rest
        (if s.isUserWhitelisted u then s
         else { s with
           userWhitelist := s.userWhitelist ++ [u],
           isUserWhitelisted := Function.update s.isUserWhitelisted u true })
      unfold addUsersLoop
      unfold SameCore at ih ⊢
      split at ih <;> simp_all

theorem removeUsersLoop_fields : ∀ (l : List Nat) (s : Storage),
    SameCore s (removeUsersLoop s l) ∧
    (removeUsersLoop s l).lockupTVLReached = s.lockupTVLReached
  | [], s => by simp [removeUsersLoop, SameCore]
  | u :: rest, s => by
      have ih := removeUsersLoop_fields rest
        { s with isUserWhitelisted := Function.update s.isUserWhitelisted u false }
      unfold removeUsersLoop
      unfold SameCore at ih ⊢
      simp_all

theorem addTokensLoop_fields : ∀ (l : List Nat) (s : Storage),
    SameCore s (addTokensLoop s l) ∧
    (addTokensLoop s l).lockupTVLReached = s.lockupTVLReached
  | [], s => by simp [addTokensLoop, SameCore]
  | t :: rest, s => by
      have ih := addTokensLoop_fields rest
        (if s.isTokenWhitelisted t then s
         else { s with
           tokenWhitelist := s.tokenWhitelist ++ [t],
           isTokenWhitelisted := Function.update s.isTokenWhitelisted t true })
      unfold addTokensLoop
      unfold SameCore at ih ⊢
      split at ih <;> simp_all

theorem removeTokensLoop_fields : ∀ (l : List Nat) (s : Storage),
    SameCore s (removeTokensLoop s l) ∧
    (removeTokensLoop s l).lockupTVLReached = s.lockupTVLReached
  | [], s => by simp [removeTokensLoop, SameCore]
  | t :: rest, s => by
      have ih := removeTokensLoop_fields rest
        { s with isTokenWhitelisted := Function.update s.isTokenWhitelisted t false }
      unfold removeTokensLoop
      unfold SameCore at ih ⊢
      simp_all

/-- Every administrative operation preserves the purchase ledger and the
configuration, and can only set (never clear) `lockupTVLReached`. -/
theorem admin_spec (s s' : Storage) :
    (∀ sender force, setLockupTVLReachedForced s sender force = some s' →
        SameCore s s' ∧ s'.lockupTVLReached = true)
    ∧ (∀ sender, setLockupTVLReached s sender = some s' →
        SameCore s s' ∧ s'.lockupTVLReached = true)
    ∧ (∀ sender users, addToUserWhitelist s sender users = some s' →
        SameCore s s' ∧ s'.lockupTVLReached = s.lockupTVLReached)
    ∧ (∀ sender users, removeFromUserWhitelist s sender users = some s' →
        SameCore s s' ∧ s'.lockupTVLReached = s.lockupTVLReached)
    ∧ (∀ sender tokens, addToTokenWhitelist s sender tokens = some s' →
        SameCore s s' ∧ s'.lockupTVLReached = s.lockupTVLReached)
    ∧ (∀ sender tokens, removeFromTokenWhitelist s sender tokens = some s' →
        SameCore s s' ∧ s'.lockupTVLReached = s.lockupTVLReached)
    ∧ (∀ sender, pause s sender = some s' →
        SameCore s s' ∧ s'.lockupTVLReached = s.lockupTVLReached)
    ∧ (∀ sender, unpause s sender = some s' →
        SameCore s s' ∧ s'.lockupTVLReached = s.lockupTVLReached)
    ∧ (∀ sender now currency, transferFunds s sender now currency = some s' →
        SameCore s s' ∧ s'.lockupTVLReached = s.lockupTVLReached)
    ∧ (∀ sender amount, setReservedTokenAmount s sender amount = some s' →
        SameCore s s' ∧ s'.lockupTVLReached = s.lockupTVLReached)
    ∧ (∀ sender mintOk, mintReservedTokens s sender mintOk = some s' →
        SameCore s s' ∧ s'.lockupTVLReached = s.lockupTVLReached)
    ∧ (∀ sender sc, setServiceContract s sender sc = some s' →
        SameCore s s' ∧ s'.lockupTVLReached = s.lockupTVLReached)
    ∧ (∀ sender tid, setTenantId s sender tid = some s' →
        SameCore s s' ∧ s'.lockupTVLReached = s.lockupTVLReached) := by
  refine ⟨?_, ?_, ?_, ?_, ?_, ?_, ?_, ?_, ?_, ?_, ?_, ?_, ?_⟩
  · intro sender force h
    unfold setLockupTVLReachedForced at h
    split at h
    · split at h
      · exact Option.noConfusion h
      · cases h
        exact ⟨by simp [SameCore], rfl⟩
    · exact Option.noConfusion h
  · intro sender h
    unfold setLockupTVLReached at h
    split at h
    · cases h
      exact ⟨by simp [SameCore], rfl⟩
    · exact Option.noConfusion h
  · intro sender users h
    unfold addToUserWhitelist at h
    split at h
    · split at h
      · exact Option.noConfusion h
      · cases h
        exact addUsersLoop_fields users s
    · exact Option.noConfusion h
  · intro sender users h
    unfold removeFromUserWhitelist at h
    split at h
    · cases h
      exact removeUsersLoop_fields users s
    · exact Option.noConfusion h
  · intro sender tokens h
    unfold addToTokenWhitelist at h
    split at h
    · split at h
      · exact Option.noConfusion h
      · cases h
        exact addTokensLoop_fields tokens s
    · exact Option.noConfusion h
  · intro sender tokens h
    unfold removeFromTokenWhitelist at h
    split at h
    · cases h
      exact removeTokensLoop_fields tokens s
    · exact Option.noConfusion h
  · intro sender h
    unfold pause at h
    split at h
    · cases h
      exact ⟨by simp [SameCore], rfl⟩
    · exact Option.noConfusion h
  · intro sender h
    unfold unpause at h
    split at h
    · cases h
      exact ⟨by simp [SameCore], rfl⟩
    · exact Option.noConfusion h
  · intro sender now currency h
    unfold transferFunds at h
    split at h
    · cases h
      exact ⟨by simp [SameCore], rfl⟩
    · exact Option.noConfusion h
  · intro sender amount h
    unfold setReservedTokenAmount at h
    split at h
    · cases h
      exact ⟨by simp [SameCore], rfl⟩
    · exact Option.noConfusion h
  · intro sender mintOk h
    unfold mintReservedTokens at h
    split at h
    · split at h
      · cases h
        exact ⟨by simp [SameCore], rfl⟩
      · cases h
        exact ⟨by simp [SameCore], rfl⟩
    · exact Option.noConfusion h
  · intro sender sc h
    unfold setServiceContract at h
    split at h
    · cases h
      exact ⟨by simp [SameCore], rfl⟩
    · exact Option.noConfusion h
  · intro sender tid h
    unfold setTenantId at h
    split at h
    · cases h
      exact ⟨by simp [SameCore], rfl⟩
    · exact Option.noConfusion h


/-- A fee oracle where every interface call reverts (also what a zero
service contract behaves like). -/
def env0 : OracleEnv :=
  { minRate := none, minRecipient := none,
    fullRate := fun _ _ => none, fullRecipient := fun _ _ => none }

/-- A zero outcome, used only as a `getD` default. -/
def outcome0 : PurchaseOutcome :=
  { feeAmount := 0, feeRecipient := 0, unlockedAmount := 0, lockedAmount := 0,
    tokenAmount := 0 }

/-- Demo configuration: price `1e18` (one payment unit per token), hardcap
10000, softcap 1000, purchase bounds `[10, 1000]`, no lockup
(`lockupTVL = 0`), duration one day, open whitelists. -/
def infoDemo : TGEInfo :=
  { price := 1000000000000000000, hardcap := 10000, softcap := 1000,
    minPurchase := 10, maxPurchase := 1000, lockupPercent := 0, lockupTVL := 0,
    lockupDuration := 0, duration := 86400, reservedTokenPercent := 0,
    userWhitelist := [], tokenWhitelist := [] }

/-- A freshly initialized immediate-transfer sale with owner `9`. -/
def saleDemo0 : Storage := initializeSale 9 3 infoDemo 0 0 true true 0

/-- `saleDemo0` after buyer `1` purchases 50 tokens for 50 wei at time 0. -/
def saleDemo1 : Storage × PurchaseOutcome :=
  (purchase saleDemo0 env0 1 50 0 1000000 true 0 0 50).getD (saleDemo0, outcome0)

theorem caps_of_sameCore {s s' : Storage} (hc : SameCore s s')
    (ih : s.totalPurchases ≤ s.hardcap ∧ ∀ a, s.purchaseOf a ≤ s.maxPurchase) :
    s'.totalPurchases ≤ s'.hardcap ∧ ∀ a, s'.purchaseOf a ≤ s'.maxPurchase := by
  obtain ⟨h1, h2, _, _, h5, _, _, h8, _⟩ := hc
  rw [h1, h2, h5, h8]
  exact ih

/-- C1: in every reachable sale state, `totalPurchases <= hardcap` and
`purchaseOf[a] <= maxPurchase` for every address `a` (every purchase path
checks the new cumulative amounts before committing, `claimBack` only
zeroes records, and no other operation touches them). -/
theorem sale_caps_invariant (s : Storage) (h : Reachable s) :
    s.totalPurchases ≤ s.hardcap ∧ ∀ a, s.purchaseOf a ≤ s.maxPurchase := by
  induction h with
  | init owner_ tokenAddr info tenantId serviceContract immediate mintOk now =>
      unfold initializeSale
      exact ⟨Nat.zero_le _, fun a => Nat.zero_le _⟩
  | purchaseStep s env sender msgValue allowance tokenBal hasMinter now currency amount
      r _ hp ih =>
      obtain ⟨_, _, _, hpo, hhc, ht, hpu, _, _, _, _, hh, _, _, hm, _⟩ := purchase_spec hp
      constructor
      · rw [ht, hh]
        exact hhc
      · intro a
        rw [hpu, hm]
        by_cases ha : a = sender
        · subst ha
          rw [Function.update_same]
          exact hpo
        · rw [Function.update_noteq ha]
          exact ih.2 a
  | escrowPurchaseStep s env escrowValid msgValue tokenBal hasMinter now investor
      paymentAmount paymentToken r _ hp ih =>
      obtain ⟨_, _, _, _, _, _, hpo, hhc, ht, hpu, _, _, _, hh, _, _, hm, _⟩ :=
        purchaseWithEscrow_spec hp
      constructor
      · rw [ht, hh]
        exact hhc
      · intro a
        rw [hpu, hm]
        by_cases ha : a = investor
        · subst ha
          rw [Function.update_same]
          exact hpo
        · rw [Function.update_noteq ha]
          exact ih.2 a
  | unlockStep s sender now s' _ hu ih =>
      obtain ⟨_, _, hs'⟩ := unlock_spec hu
      subst hs'
      exact ih
  | claimBackStep s sender now currency s' _ hc ih =>
      obtain ⟨_, _, _, hs'⟩ := claimBack_spec hc
      subst hs'
      refine ⟨ih.1, fun a => ?_⟩
      dsimp only
      by_cases ha : a = sender
      · subst ha
        rw [Function.update_same]
        exact Nat.zero_le _
      · rw [Function.update_noteq ha]
        exact ih.2 a
  | setForcedStep s sender force s' _ h ih =>
      exact caps_of_sameCore ((admin_spec s s').1 sender force h).1 ih
  | setTVLStep s sender s' _ h ih =>
      exact caps_of_sameCore ((admin_spec s s').2.1 sender h).1 ih
  | addUserStep s sender users s' _ h ih =>
      exact caps_of_sameCore ((admin_spec s s').2.2.1 sender users h).1 ih
  | removeUserStep s sender users s' _ h ih =>
      exact caps_of_sameCore ((admin_spec s s').2.2.2.1 sender users h).1 ih
  | addTokenStep s sender tokens s' _ h ih =>
      exact caps_of_sameCore ((admin_spec s s').2.2.2.2.1 sender tokens h).1 ih
  | removeTokenStep s sender tokens s' _ h ih =>
      exact caps_of_sameCore ((admin_spec s s').2.2.2.2.2.1 sender tokens h).1 ih
  | pauseStep s sender s' _ h ih =>
      exact caps_of_sameCore ((admin_spec s s').2.2.2.2.2.2.1 sender h).1 ih
  | unpauseStep s sender s' _ h ih =>
      exact caps_of_sameCore ((admin_spec s s').2.2.2.2.2.2.2.1 sender h).1 ih
  | transferFundsStep s sender now currency s' _ h ih =>
      exact caps_of_sameCore
        ((admin_spec s s').2.2.2.2.2.2.2.2.1 sender now currency h).1 ih
  | setReservedStep s sender amount s' _ h ih =>
      exact caps_of_sameCore
        ((admin_spec s s').2.2.2.2.2.2.2.2.2.1 sender amount h).1 ih
  | mintReservedStep s sender mintOk s' _ h ih =>
      exact caps_of_sameCore
        ((admin_spec s s').2.2.2.2.2.2.2.2.2.2.1 sender mintOk h).1 ih
  | setServiceStep s sender sc s' _ h ih =>
      exact caps_of_sameCore
        ((admin_spec s s').2.2.2.2.2.2.2.2.2.2.2.1 sender sc h).1 ih
  | setTenantStep s sender tid s' _ h ih =>
      exact caps_of_sameCore
        ((admin_spec s s').2.2.2.2.2.2.2.2.2.2.2.2 sender tid h).1 ih

/-- Witness for C1: the reachable state after a concrete 50-token purchase
satisfies both cap bounds. -/
theorem sale_caps_invariant_witness :
    saleDemo1.1.totalPurchases ≤ saleDemo1.1.hardcap ∧
    saleDemo1.1.purchaseOf 1 ≤ saleDemo1.1.maxPurchase := by
  have hReach : Reachable saleDemo1.1 :=
    Reachable.purchaseStep saleDemo0 env0 1 50 0 1000000 true 0 0 50 saleDemo1
      (Reachable.init 9 3 infoDemo 0 0 true true 0) rfl
  exact ⟨(sale_caps_invariant saleDemo1.1 hReach).1,
         (sale_caps_invariant saleDemo1.1 hReach).2 1⟩


/-- C5: `state()` is a pure function of the ledger and the clock (in this
embedding it takes the storage and `now` and stores nothing): `Successful`
whenever `totalPurchases >= hardcap` regardless of time; otherwise `Active`
strictly before `createdAt + duration`; from then on `Successful` when
`totalPurchases >= softcap` and `Failed` otherwise. -/
theorem sale_state_classification (s : Storage) (now : Nat) :
    (s.hardcap ≤ s.totalPurchases → state s now = .Successful) ∧
    (s.totalPurchases < s.hardcap → now < s.createdAt + s.duration →
      state s now = .Active) ∧
    (s.totalPurchases < s.hardcap → s.createdAt + s.duration ≤ now →
      s.softcap ≤ s.totalPurchases → state s now = .Successful) ∧
    (s.totalPurchases < s.hardcap → s.createdAt + s.duration ≤ now →
      s.totalPurchases < s.softcap → state s now = .Failed) := by
  unfold state
  refine ⟨?_, ?_, ?_, ?_⟩
  · intro h1
    rw [if_pos h1]
  · intro h1 h2
    rw [if_neg (by omega), if_pos h2]
  · intro h1 h2 h3
    rw [if_neg (by omega), if_neg (by omega), if_pos h3]
  · intro h1 h2 h3
    rw [if_neg (by omega), if_neg (by omega), if_neg (by omega)]

/-- Scenario A of the spec: softcap 100, hardcap 1000, duration one day,
150 tokens sold, queried on day two. -/
def saleScnA : Storage :=
  { saleDemo0 with softcap := 100, hardcap := 1000, totalPurchases := 150 }

/-- Scenario B of the spec: as A but only 50 tokens sold. -/
def saleScnB : Storage :=
  { saleDemo0 with softcap := 100, hardcap := 1000, totalPurchases := 50 }

/-- Witness for C5: scenario A is `Successful` and scenario B is `Failed`
on day two. -/
theorem sale_state_classification_witness :
    state saleScnA 172800 = .Successful ∧ state saleScnB 172800 = .Failed :=
  ⟨(sale_state_classification saleScnA 172800).2.2.1 (by decide) (by decide) (by decide),
   (sale_state_classification saleScnB 172800).2.2.2 (by decide) (by decide) (by decide)⟩

/-- C10: `totalPurchases` never decreases under any operation; `claimBack`
zeroes the caller's `paidAmount[currency]`, `purchaseOf` and
`lockedBalanceOf` but leaves `totalPurchases` (and every field `state()`
reads) unchanged, so the computed classification is unaffected by refunds. -/
theorem sale_totalPurchases_monotone (s : Storage) :
    (∀ env sender msgValue allowance tokenBal hasMinter now currency amount r,
        purchase s env sender msgValue allowance tokenBal hasMinter now currency amount
          = some r →
        s.totalPurchases ≤ r.1.totalPurchases)
    ∧ (∀ env escrowValid msgValue tokenBal hasMinter now investor paymentAmount
          paymentToken r,
        purchaseWithEscrow s env escrowValid msgValue tokenBal hasMinter now investor
          paymentAmount paymentToken = some r →
        s.totalPurchases ≤ r.1.totalPurchases)
    ∧ (∀ sender now s', unlock s sender now = some s' →
        s'.totalPurchases = s.totalPurchases)
    ∧ (∀ sender now currency s', claimBack s sender now currency = some s' →
        s'.totalPurchases = s.totalPurchases ∧
        s'.paidAmount sender currency = 0 ∧
        s'.purchaseOf sender = 0 ∧
        s'.lockedBalanceOf sender = 0 ∧
        ∀ t, state s' t = state s t)
    ∧ (∀ sender force s', setLockupTVLReachedForced s sender force = some s' →
        s'.totalPurchases = s.totalPurchases)
    ∧ (∀ sender s', setLockupTVLReached s sender = some s' →
        s'.totalPurchases = s.totalPurchases)
    ∧ (∀ sender users s', addToUserWhitelist s sender users = some s' →
        s'.totalPurchases = s.totalPurchases)
    ∧ (∀ sender users s', removeFromUserWhitelist s sender users = some s' →
        s'.totalPurchases = s.totalPurchases)
    ∧ (∀ sender tokens s', addToTokenWhitelist s sender tokens = some s' →
        s'.totalPurchases = s.totalPurchases)
    ∧ (∀ sender tokens s', removeFromTokenWhitelist s sender tokens = some s' →
        s'.totalPurchases = s.totalPurchases)
    ∧ (∀ sender s', pause s sender = some s' → s'.totalPurchases = s.totalPurchases)
    ∧ (∀ sender s', unpause s sender = some s' → s'.totalPurchases = s.totalPurchases)
    ∧ (∀ sender now currency s', transferFunds s sender now currency = some s' →
        s'.totalPurchases = s.totalPurchases)
    ∧ (∀ sender amount s', setReservedTokenAmount s sender amount = some s' →
        s'.totalPurchases = s.totalPurchases)
    ∧ (∀ sender mintOk s', mintReservedTokens s sender mintOk = some s' →
        s'.totalPurchases = s.totalPurchases)
    ∧ (∀ sender sc s', setServiceContract s sender sc = some s' →
        s'.totalPurchases = s.totalPurchases)
    ∧ (∀ sender tid s', setTenantId s sender tid = some s' →
        s'.totalPurchases = s.totalPurchases) := by
  refine ⟨?_, ?_, ?_, ?_, ?_, ?_, ?_, ?_, ?_, ?_, ?_, ?_, ?_, ?_, ?_, ?_, ?_⟩
  · intro env sender msgValue allowance tokenBal hasMinter now currency amount r hp
    obtain ⟨_, _, _, _, _, ht, _⟩ := purchase_spec hp
    omega
  · intro env escrowValid msgValue tokenBal hasMinter now investor paymentAmount
      paymentToken r hp
    obtain ⟨_, _, _, _, _, _, _, _, ht, _⟩ := purchaseWithEscrow_spec hp
    omega
  · intro sender now s' hu
    obtain ⟨_, _, hs'⟩ := unlock_spec hu
    subst hs'
    rfl
  · intro sender now currency s' hc
    obtain ⟨_, _, _, hs'⟩ := claimBack_spec hc
    subst hs'
    refine ⟨rfl, ?_, ?_, ?_, fun t => rfl⟩
    · dsimp only
      simp [update2, Function.update_same]
    · dsimp only
      simp [Function.update_same]
    · dsimp only
      simp [Function.update_same]
  · intro sender force s' h
    exact (((admin_spec s s').1 sender force h).1).1
  · intro sender s' h
    exact (((admin_spec s s').2.1 sender h).1).1
  · intro sender users s' h
    exact (((admin_spec s s').2.2.1 sender users h).1).1
  · intro sender users s' h
    exact (((admin_spec s s').2.2.2.1 sender users h).1).1
  · intro sender tokens s' h
    exact (((admin_spec s s').2.2.2.2.1 sender tokens h).1).1
  · intro sender tokens s' h
    exact (((admin_spec s s').2.2.2.2.2.1 sender tokens h).1).1
  · intro sender s' h
    exact (((admin_spec s s').2.2.2.2.2.2.1 sender h).1).1
  · intro sender s' h
    exact (((admin_spec s s').2.2.2.2.2.2.2.1 sender h).1).1
  · intro sender now currency s' h
    exact (((admin_spec s s').2.2.2.2.2.2.2.2.1 sender now currency h).1).1
  · intro sender amount s' h
    exact (((admin_spec s s').2.2.2.2.2.2.2.2.2.1 sender amount h).1).1
  · intro sender mintOk s' h
    exact (((admin_spec s s').2.2.2.2.2.2.2.2.2.2.1 sender mintOk h).1).1
  · intro sender sc s' h
    exact (((admin_spec s s').2.2.2.2.2.2.2.2.2.2.2.1 sender sc h).1).1
  · intro sender tid s' h
    exact (((admin_spec s s').2.2.2.2.2.2.2.2.2.2.2.2 sender tid h).1).1


/-- Vault-mode configuration with a 50% lockup and an unreached lockup TVL. -/
def infoVault : TGEInfo :=
  { price := 1000000000000000000, hardcap := 10000, softcap := 1000,
    minPurchase := 10, maxPurchase := 1000, lockupPercent := 5000,
    lockupTVL := 999999, lockupDuration := 100, duration := 86400,
    reservedTokenPercent := 0, userWhitelist := [], tokenWhitelist := [] }

/-- A freshly initialized vault-mode sale (`immediateTransfer = false`). -/
def saleVault0 : Storage := initializeSale 9 3 infoVault 0 0 false true 0

/-- `saleVault0` after buyer `1` purchases 100 tokens for 100 wei at time 0;
50 are delivered and 50 go to the buyer's locked balance. -/
def saleVault1 : Storage :=
  ((purchase saleVault0 env0 1 100 0 1000000 true 0 0 100).getD
    (saleVault0, outcome0)).1

/-- `saleVault1` after buyer `1` claims back at time 86400 (sale `Failed`). -/
def saleVault2 : Storage := (claimBack saleVault1 1 86400 0).getD saleVault0

/-- Witness for C10: on the concrete failed vault sale, `claimBack` zeroes
the caller's records but leaves `totalPurchases` and the computed state
unchanged. -/
theorem sale_totalPurchases_monotone_witness :
    claimBack saleVault1 1 86400 0 = some saleVault2 ∧
    saleVault2.totalPurchases = saleVault1.totalPurchases ∧
    saleVault2.paidAmount 1 0 = 0 ∧
    saleVault2.purchaseOf 1 = 0 ∧
    saleVault2.lockedBalanceOf 1 = 0 ∧
    state saleVault2 86400 = state saleVault1 86400 := by
  have h := (sale_totalPurchases_monotone saleVault1).2.2.2.1 1 86400 0 saleVault2 rfl
  exact ⟨rfl, h.1, h.2.1, h.2.2.1, h.2.2.2.1, h.2.2.2.2 86400⟩

/-- Counterexample for C6: in the reachable vault sale `saleVault1` the
buyer holds a locked balance of 50, the unlock condition does not hold
(`lockupTVLReached` is false), and yet `claimBack` succeeds and drops
`lockedBalanceOf[1]` from 50 to 0.  So an operation other than `unlock()`
does decrease a locked balance. -/
theorem sale_lockedBalance_counterexample :
    Reachable saleVault1 ∧
    saleVault1.lockedBalanceOf 1 = 50 ∧
    unlockAvailable saleVault1 86400 = false ∧
    claimBack saleVault1 1 86400 0 = some saleVault2 ∧
    saleVault2.lockedBalanceOf 1 = 0 := by
  refine ⟨?_, rfl, rfl, rfl, rfl⟩
  exact Reachable.purchaseStep saleVault0 env0 1 100 0 1000000 true 0 0 100
    ((purchase saleVault0 env0 1 100 0 1000000 true 0 0 100).getD
      (saleVault0, outcome0))
    (Reachable.init 9 3 infoVault 0 0 false true 0) rfl

/-- C6 (amended): `lockedBalanceOf[a]` decreases only through `unlock()` —
which requires the global condition `unlockAvailable()` — or through
`claimBack`, which requires the computed state `Failed` in vault mode and
zeroes the caller's locked balance; purchases only increase locked balances
and the administrative operations never change them. -/
theorem sale_lockedBalance_decrease_paths (s : Storage) (a : Nat) :
    (∀ env sender msgValue allowance tokenBal hasMinter now currency amount r,
        purchase s env sender msgValue allowance tokenBal hasMinter now currency amount
          = some r →
        s.lockedBalanceOf a ≤ r.1.lockedBalanceOf a)
    ∧ (∀ env escrowValid msgValue tokenBal hasMinter now investor paymentAmount
          paymentToken r,
        purchaseWithEscrow s env escrowValid msgValue tokenBal hasMinter now investor
          paymentAmount paymentToken = some r →
        s.lockedBalanceOf a ≤ r.1.lockedBalanceOf a)
    ∧ (∀ sender now s', unlock s sender now = some s' → unlockAvailable s now = true)
    ∧ (∀ sender now currency s', claimBack s sender now currency = some s' →
        state s now = .Failed ∧ s.immediateTransfer = false ∧
        (a ≠ sender → s'.lockedBalanceOf a = s.lockedBalanceOf a))
    ∧ (∀ sender force s', setLockupTVLReachedForced s sender force = some s' →
        s'.lockedBalanceOf = s.lockedBalanceOf)
    ∧ (∀ sender s', setLockupTVLReached s sender = some s' →
        s'.lockedBalanceOf = s.lockedBalanceOf)
    ∧ (∀ sender users s', addToUserWhitelist s sender users = some s' →
        s'.lockedBalanceOf = s.lockedBalanceOf)
    ∧ (∀ sender users s', removeFromUserWhitelist s sender users = some s' →
        s'.lockedBalanceOf = s.lockedBalanceOf)
    ∧ (∀ sender tokens s', addToTokenWhitelist s sender tokens = some s' →
        s'.lockedBalanceOf = s.lockedBalanceOf)
    ∧ (∀ sender tokens s', removeFromTokenWhitelist s sender tokens = some s' →
        s'.lockedBalanceOf = s.lockedBalanceOf)
    ∧ (∀ sender s', pause s sender = some s' → s'.lockedBalanceOf = s.lockedBalanceOf)
    ∧ (∀ sender s', unpause s sender = some s' → s'.lockedBalanceOf = s.lockedBalanceOf)
    ∧ (∀ sender now currency s', transferFunds s sender now currency = some s' →
        s'.lockedBalanceOf = s.lockedBalanceOf)
    ∧ (∀ sender amount s', setReservedTokenAmount s sender amount = some s' →
        s'.lockedBalanceOf = s.lockedBalanceOf)
    ∧ (∀ sender mintOk s', mintReservedTokens s sender mintOk = some s' →
        s'.lockedBalanceOf = s.lockedBalanceOf)
    ∧ (∀ sender sc s', setServiceContract s sender sc = some s' →
        s'.lockedBalanceOf = s.lockedBalanceOf)
    ∧ (∀ sender tid s', setTenantId s sender tid = some s' →
        s'.lockedBalanceOf = s.lockedBalanceOf) := by
  refine ⟨?_, ?_, ?_, ?_, ?_, ?_, ?_, ?_, ?_, ?_, ?_, ?_, ?_, ?_, ?_, ?_, ?_⟩
  · intro env sender msgValue allowance tokenBal hasMinter now currency amount r hp
    obtain ⟨_, _, _, _, _, _, _, hl, _⟩ := purchase_spec hp
    rw [hl]
    by_cases ha : a = sender
    · subst ha
      rw [Function.update_same]
      omega
    · rw [Function.update_noteq ha]
  · intro env escrowValid msgValue tokenBal hasMinter now investor paymentAmount
      paymentToken r hp
    obtain ⟨_, _, _, _, _, _, _, _, _, _, hl, _⟩ := purchaseWithEscrow_spec hp
    rw [hl]
    by_cases ha : a = investor
    · subst ha
      rw [Function.update_same]
      omega
    · rw [Function.update_noteq ha]
  · intro sender now s' hu
    exact (unlock_spec hu).1
  · intro sender now currency s' hc
    obtain ⟨h1, h2, _, hs'⟩ := claimBack_spec hc
    subst hs'
    refine ⟨h1, h2, fun ha => ?_⟩
    dsimp only
    rw [Function.update_noteq ha]
  · intro sender force s' h
    exact (((admin_spec s s').1 sender force h).1).2.2.1
  · intro sender s' h
    exact (((admin_spec s s').2.1 sender h).1).2.2.1
  · intro sender users s' h
    exact (((admin_spec s s').2.2.1 sender users h).1).2.2.1
  · intro sender users s' h
    exact (((admin_spec s s').2.2.2.1 sender users h).1).2.2.1
  · intro sender tokens s' h
    exact (((admin_spec s s').2.2.2.2.1 sender tokens h).1).2.2.1
  · intro sender tokens s' h
    exact (((admin_spec s s').2.2.2.2.2.1 sender tokens h).1).2.2.1
  · intro sender s' h
    exact (((admin_spec s s').2.2.2.2.2.2.1 sender h).1).2.2.1
  · intro sender s' h
    exact (((admin_spec s s').2.2.2.2.2.2.2.1 sender h).1).2.2.1
  · intro sender now currency s' h
    exact (((admin_spec s s').2.2.2.2.2.2.2.2.1 sender now currency h).1).2.2.1
  · intro sender amount s' h
    exact (((admin_spec s s').2.2.2.2.2.2.2.2.2.1 sender amount h).1).2.2.1
  · intro sender mintOk s' h
    exact (((admin_spec s s').2.2.2.2.2.2.2.2.2.2.1 sender mintOk h).1).2.2.1
  · intro sender sc s' h
    exact (((admin_spec s s').2.2.2.2.2.2.2.2.2.2.2.1 sender sc h).1).2.2.1
  · intro sender tid s' h
    exact (((admin_spec s s').2.2.2.2.2.2.2.2.2.2.2.2 sender tid h).1).2.2.1

/-- Witness for the amended C6: concrete instances — `unlock` on the vault
sale requires the unavailable unlock condition (so it cannot run), while the
successful `claimBack` above happened with the sale `Failed` in vault mode,
and address `2` kept its locked balance. -/
theorem sale_lockedBalance_decrease_paths_witness :
    claimBack saleVault1 1 86400 0 = some saleVault2 ∧
    (state saleVault1 86400 = .Failed ∧ saleVault1.immediateTransfer = false ∧
      ((2 : Nat) ≠ 1 → saleVault2.lockedBalanceOf 2 = saleVault1.lockedBalanceOf 2)) := by
  have h := (sale_lockedBalance_decrease_paths saleVault1 2).2.2.2.1 1 86400 0
    saleVault2 rfl
  exact ⟨rfl, h⟩


theorem zeroTVL_step {s s' : Storage} (hc : SameCore s s')
    (hf : s'.lockupTVLReached = true ∨ s'.lockupTVLReached = s.lockupTVLReached)
    (ih : s.lockupTVL = 0 → s.lockupTVLReached = true ∧ ∀ a, s.lockedBalanceOf a = 0) :
    s'.lockupTVL = 0 → s'.lockupTVLReached = true ∧ ∀ a, s'.lockedBalanceOf a = 0 := by
  intro h0
  obtain ⟨_, _, h3, _, _, _, _, _, _, _, h11, _⟩ := hc
  rw [h11] at h0
  obtain ⟨hfl, hlz⟩ := ih h0
  refine ⟨?_, fun a => ?_⟩
  · rcases hf with hf | hf
    · exact hf
    · rw [hf, hfl]
  · rw [h3]
    exact hlz a

theorem zeroTVL_inv (s : Storage) (h : Reachable s) :
    s.lockupTVL = 0 → s.lockupTVLReached = true ∧ ∀ a, s.lockedBalanceOf a = 0 := by
  induction h with
  | init owner_ tokenAddr info tenantId serviceContract immediate mintOk now =>
      intro h0
      unfold initializeSale at h0 ⊢
      dsimp only at h0 ⊢
      simp [h0]
  | purchaseStep s env sender msgValue allowance tokenBal hasMinter now currency amount
      r _ hp ih =>
      intro h0
      obtain ⟨_, _, _, _, _, _, _, hl, _, _, hflag, _, _, _, _, _, _, hTVL, _, hR, _⟩ :=
        purchase_spec hp
      rw [hTVL] at h0
      obtain ⟨hfl, hlz⟩ := ih h0
      obtain ⟨hl0, _⟩ := hflag hfl
      refine ⟨by rw [hR, hfl], fun a => ?_⟩
      rw [hl, hl0]
      by_cases ha : a = sender
      · subst ha
        rw [Function.update_same, hlz a]
      · rw [Function.update_noteq ha]
        exact hlz a
  | escrowPurchaseStep s env escrowValid msgValue tokenBal hasMinter now investor
      paymentAmount paymentToken r _ hp ih =>
      intro h0
      obtain ⟨_, _, _, _, _, _, _, _, _, _, hl, _, hflag, _, _, _, _, _, _, hTVL, _,
        hR, _⟩ := purchaseWithEscrow_spec hp
      rw [hTVL] at h0
      obtain ⟨hfl, hlz⟩ := ih h0
      obtain ⟨hl0, _⟩ := hflag hfl
      refine ⟨by rw [hR, hfl], fun a => ?_⟩
      rw [hl, hl0]
      by_cases ha : a = investor
      · subst ha
        rw [Function.update_same, hlz a]
      · rw [Function.update_noteq ha]
        exact hlz a
  | unlockStep s sender now s' _ hu ih =>
      intro h0
      obtain ⟨_, _, hs'⟩ := unlock_spec hu
      subst hs'
      obtain ⟨hfl, hlz⟩ := ih h0
      refine ⟨hfl, fun a => ?_⟩
      dsimp only
      by_cases ha : a = sender
      · subst ha
        rw [Function.update_same]
      · rw [Function.update_noteq ha]
        exact hlz a
  | claimBackStep s sender now currency s' _ hc ih =>
      intro h0
      obtain ⟨_, _, _, hs'⟩ := claimBack_spec hc
      subst hs'
      obtain ⟨hfl, hlz⟩ := ih h0
      refine ⟨hfl, fun a => ?_⟩
      dsimp only
      by_cases ha : a = sender
      · subst ha
        rw [Function.update_same]
      · rw [Function.update_noteq ha]
        exact hlz a
  | setForcedStep s sender force s' _ h ih =>
      have hs := (admin_spec s s').1 sender force h
      exact zeroTVL_step hs.1 (Or.inl hs.2) ih
  | setTVLStep s sender s' _ h ih =>
      have hs := (admin_spec s s').2.1 sender h
      exact zeroTVL_step hs.1 (Or.inl hs.2) ih
  | addUserStep s sender users s' _ h ih =>
      have hs := (admin_spec s s').2.2.1 sender users h
      exact zeroTVL_step hs.1 (Or.inr hs.2) ih
  | removeUserStep s sender users s' _ h ih =>
      have hs := (admin_spec s s').2.2.2.1 sender users h
      exact zeroTVL_step hs.1 (Or.inr hs.2) ih
  | addTokenStep s sender tokens s' _ h ih =>
      have hs := (admin_spec s s').2.2.2.2.1 sender tokens h
      exact zeroTVL_step hs.1 (Or.inr hs.2) ih
  | removeTokenStep s sender tokens s' _ h ih =>
      have hs := (admin_spec s s').2.2.2.2.2.1 sender tokens h
      exact zeroTVL_step hs.1 (Or.inr hs.2) ih
  | pauseStep s sender s' _ h ih =>
      have hs := (admin_spec s s').2.2.2.2.2.2.1 sender h
      exact zeroTVL_step hs.1 (Or.inr hs.2) ih
  | unpauseStep s sender s' _ h ih =>
      have hs := (admin_spec s s').2.2.2.2.2.2.2.1 sender h
      exact zeroTVL_step hs.1 (Or.inr hs.2) ih
  | transferFundsStep s sender now currency s' _ h ih =>
      have hs := (admin_spec s s').2.2.2.2.2.2.2.2.1 sender now currency h
      exact zeroTVL_step hs.1 (Or.inr hs.2) ih
  | setReservedStep s sender amount s' _ h ih =>
      have hs := (admin_spec s s').2.2.2.2.2.2.2.2.2.1 sender amount h
      exact zeroTVL_step hs.1 (Or.inr hs.2) ih
  | mintReservedStep s sender mintOk s' _ h ih =>
      have hs := (admin_spec s s').2.2.2.2.2.2.2.2.2.2.1 sender mintOk h
      exact zeroTVL_step hs.1 (Or.inr hs.2) ih
  | setServiceStep s sender sc s' _ h ih =>
      have hs := (admin_spec s s').2.2.2.2.2.2.2.2.2.2.2.1 sender sc h
      exact zeroTVL_step hs.1 (Or.inr hs.2) ih
  | setTenantStep s sender tid s' _ h ih =>
      have hs := (admin_spec s s').2.2.2.2.2.2.2.2.2.2.2.2 sender tid h
      exact zeroTVL_step hs.1 (Or.inr hs.2) ih

/-- C9: when the sale is initialized with `lockupTVL = 0`, the flag
`lockupTVLReached` is true from initialization on (no operation ever clears
it), every purchase on any reachable such state delivers the full token
amount unlocked with a zero locked part regardless of `lockupPercent`, and
every `lockedBalanceOf` entry stays zero in every reachable state. -/
theorem sale_zero_lockupTVL (s : Storage) (h : Reachable s) (h0 : s.lockupTVL = 0) :
    s.lockupTVLReached = true ∧ (∀ a, s.lockedBalanceOf a = 0) ∧
    (∀ env sender msgValue allowance tokenBal hasMinter now currency amount r,
        purchase s env sender msgValue allowance tokenBal hasMinter now currency amount
          = some r →
        r.2.unlockedAmount = amount ∧ r.2.lockedAmount = 0) ∧
    (∀ env escrowValid msgValue tokenBal hasMinter now investor paymentAmount
        paymentToken r,
        purchaseWithEscrow s env escrowValid msgValue tokenBal hasMinter now investor
          paymentAmount paymentToken = some r →
        r.2.unlockedAmount = r.2.tokenAmount ∧ r.2.lockedAmount = 0) := by
  obtain ⟨hfl, hlz⟩ := zeroTVL_inv s h h0
  refine ⟨hfl, hlz, ?_, ?_⟩
  · intro env sender msgValue allowance tokenBal hasMinter now currency amount r hp
    obtain ⟨_, _, _, _, _, _, _, _, _, _, hflag, _⟩ := purchase_spec hp
    obtain ⟨h1, h2⟩ := hflag hfl
    exact ⟨h2, h1⟩
  · intro env escrowValid msgValue tokenBal hasMinter now investor paymentAmount
      paymentToken r hp
    obtain ⟨_, _, _, _, _, _, _, _, _, _, _, _, hflag, _⟩ := purchaseWithEscrow_spec hp
    obtain ⟨h1, h2⟩ := hflag hfl
    exact ⟨h2, h1⟩

/-- Witness for C9: the concrete demo sale has `lockupTVL = 0`, its flag is
set from initialization, and the concrete 50-token purchase is delivered
fully unlocked. -/
theorem sale_zero_lockupTVL_witness :
    saleDemo0.lockupTVLReached = true ∧
    saleDemo0.lockedBalanceOf 1 = 0 ∧
    purchase saleDemo0 env0 1 50 0 1000000 true 0 0 50 = some saleDemo1 ∧
    saleDemo1.2.unlockedAmount = 50 ∧ saleDemo1.2.lockedAmount = 0 := by
  have h := sale_zero_lockupTVL saleDemo0
    (Reachable.init 9 3 infoDemo 0 0 true true 0) rfl
  have hc := h.2.2.1 env0 1 50 0 1000000 true 0 0 50 saleDemo1 rfl
  exact ⟨h.1, h.2.1 1, rfl, hc.1, hc.2⟩


/-- C3: for an escrow purchase the fee is resolved on the gross
`paymentAmount` first; the call reverts whenever the fee consumes the whole
payment (`netPayment = paymentAmount - fee` must be strictly positive, and
the subtraction itself is checked), and on success exactly
`netPayment * 1e18 / price` tokens are sold to the investor: that amount is
returned, and the investor's cumulative purchase record grows by it. -/
theorem escrow_net_payment_pricing (s : Storage) (env : OracleEnv)
    (escrowValid : Bool) (msgValue tokenBal : Nat) (hasMinter : Bool)
    (now investor paymentAmount paymentToken : Nat) :
    (paymentAmount ≤ (calculatePlatformFee env s paymentAmount).1 →
      purchaseWithEscrow s env escrowValid msgValue tokenBal hasMinter now investor
        paymentAmount paymentToken = none)
    ∧ ∀ r, purchaseWithEscrow s env escrowValid msgValue tokenBal hasMinter now investor
          paymentAmount paymentToken = some r →
        (calculatePlatformFee env s paymentAmount).1 < paymentAmount ∧
        r.2.feeAmount = (calculatePlatformFee env s paymentAmount).1 ∧
        r.2.tokenAmount = (paymentAmount - (calculatePlatformFee env s paymentAmount).1)
          * 1000000000000000000 / s.price ∧
        r.1.purchaseOf investor = s.purchaseOf investor + r.2.tokenAmount := by
  constructor
  · intro hle
    cases hr : purchaseWithEscrow s env escrowValid msgValue tokenBal hasMinter now
        investor paymentAmount paymentToken with
    | none => rfl
    | some r =>
        obtain ⟨_, _, hlt, _⟩ := purchaseWithEscrow_spec hr
        omega
  · intro r hr
    obtain ⟨_, _, hlt, hfee, htok, _, _, _, _, hpu, _⟩ := purchaseWithEscrow_spec hr
    refine ⟨hlt, hfee, htok, ?_⟩
    rw [hpu, Function.update_same]

/-- A fee oracle whose minimal interface reports a 10% commission (1000
basis points) to recipient `8`. -/
def envFee : OracleEnv :=
  { minRate := some 1000, minRecipient := some 8,
    fullRate := fun _ _ => none, fullRecipient := fun _ _ => none }

/-- The demo sale configured with service contract `5` (so the fee oracle
is consulted). -/
def saleFee0 : Storage := initializeSale 9 3 infoDemo 0 5 true true 0

/-- The result of an escrow purchase of gross 1000 units of ERC20 currency
`7` against `saleFee0`: fee 100, net 900, 900 tokens sold. -/
def escrowFeeRes : Storage × PurchaseOutcome :=
  (purchaseWithEscrow saleFee0 envFee true 0 1000000 true 0 1 1000 7).getD
    (saleFee0, outcome0)

/-- Witness for C3: the concrete escrow purchase succeeds, charges fee 100
on the gross 1000, and sells exactly `900 * 1e18 / 1e18 = 900` tokens. -/
theorem escrow_net_payment_pricing_witness :
    purchaseWithEscrow saleFee0 envFee true 0 1000000 true 0 1 1000 7
      = some escrowFeeRes ∧
    ((calculatePlatformFee envFee saleFee0 1000).1 < 1000 ∧
     escrowFeeRes.2.feeAmount = (calculatePlatformFee envFee saleFee0 1000).1 ∧
     escrowFeeRes.2.tokenAmount =
       (1000 - (calculatePlatformFee envFee saleFee0 1000).1)
         * 1000000000000000000 / saleFee0.price ∧
     escrowFeeRes.1.purchaseOf 1 = saleFee0.purchaseOf 1 + escrowFeeRes.2.tokenAmount) ∧
    escrowFeeRes.2.feeAmount = 100 ∧ escrowFeeRes.2.tokenAmount = 900 :=
  ⟨rfl,
   (escrow_net_payment_pricing saleFee0 envFee true 0 1000000 true 0 1 1000 7).2
     escrowFeeRes rfl,
   rfl, rfl⟩


/-- Counterexample for C4: in the reachable demo state where buyer `1`
already holds 50 tokens, a further purchase of 5 satisfies every cumulative
bound stated by the claim (`55 >= minPurchase = 10`, `55 <= maxPurchase`,
new total within hardcap), and every non-limit precondition holds (the same
call with amount 10 succeeds), yet the purchase reverts: the source checks
the per-call `amount`, not the cumulative purchase, against `minPurchase`. -/
theorem sale_limit_counterexample :
    Reachable saleDemo1.1 ∧
    saleDemo1.1.minPurchase ≤ saleDemo1.1.purchaseOf 1 + 5 ∧
    saleDemo1.1.purchaseOf 1 + 5 ≤ saleDemo1.1.maxPurchase ∧
    saleDemo1.1.totalPurchases + 5 ≤ saleDemo1.1.hardcap ∧
    purchase saleDemo1.1 env0 1 5 0 1000000 true 0 0 5 = none ∧
    (purchase saleDemo1.1 env0 1 10 0 1000000 true 0 0 10).isSome = true := by
  refine ⟨?_, by decide, by decide, by decide, rfl, rfl⟩
  exact Reachable.purchaseStep saleDemo0 env0 1 50 0 1000000 true 0 0 50 saleDemo1
    (Reachable.init 9 3 infoDemo 0 0 true true 0) rfl

/-- C4 (amended): the escrow path checks all three limits on cumulative
token amounts, while the direct path checks `minPurchase` against the
per-call amount and only the max/hardcap limits cumulatively; in each path a
violated limit makes the call revert (return `none`), and since a reverted
call produces no successor state at all, the whole purchase — fee transfer
included — is undone atomically, exactly as an EVM revert. -/
theorem sale_limit_checks (s : Storage) :
    (∀ env sender msgValue allowance tokenBal hasMinter now currency amount r,
        purchase s env sender msgValue allowance tokenBal hasMinter now currency amount
          = some r →
        s.minPurchase ≤ amount ∧ s.purchaseOf sender + amount ≤ s.maxPurchase ∧
        s.totalPurchases + amount ≤ s.hardcap)
    ∧ (∀ env sender msgValue allowance tokenBal hasMinter now currency amount,
        amount < s.minPurchase ∨ s.maxPurchase < s.purchaseOf sender + amount ∨
          s.hardcap < s.totalPurchases + amount →
        purchase s env sender msgValue allowance tokenBal hasMinter now currency amount
          = none)
    ∧ (∀ env escrowValid msgValue tokenBal hasMinter now investor paymentAmount
          paymentToken r,
        purchaseWithEscrow s env escrowValid msgValue tokenBal hasMinter now investor
          paymentAmount paymentToken = some r →
        s.minPurchase ≤ s.purchaseOf investor + r.2.tokenAmount ∧
        s.purchaseOf investor + r.2.tokenAmount ≤ s.maxPurchase ∧
        s.totalPurchases + r.2.tokenAmount ≤ s.hardcap)
    ∧ (∀ env escrowValid msgValue tokenBal hasMinter now investor paymentAmount
          paymentToken,
        (s.purchaseOf investor +
            (paymentAmount - (calculatePlatformFee env s paymentAmount).1)
              * 1000000000000000000 / s.price < s.minPurchase ∨
         s.maxPurchase < s.purchaseOf investor +
            (paymentAmount - (calculatePlatformFee env s paymentAmount).1)
              * 1000000000000000000 / s.price ∨
         s.hardcap < s.totalPurchases +
            (paymentAmount - (calculatePlatformFee env s paymentAmount).1)
              * 1000000000000000000 / s.price) →
        purchaseWithEscrow s env escrowValid msgValue tokenBal hasMinter now investor
          paymentAmount paymentToken = none) := by
  refine ⟨?_, ?_, ?_, ?_⟩
  · intro env sender msgValue allowance tokenBal hasMinter now currency amount r hp
    obtain ⟨_, _, h1, h2, h3, _⟩ := purchase_spec hp
    exact ⟨h1, h2, h3⟩
  · intro env sender msgValue allowance tokenBal hasMinter now currency amount hv
    cases hr : purchase s env sender msgValue allowance tokenBal hasMinter now currency
        amount with
    | none => rfl
    | some r =>
        obtain ⟨_, _, h1, h2, h3, _⟩ := purchase_spec hr
        omega
  · intro env escrowValid msgValue tokenBal hasMinter now investor paymentAmount
      paymentToken r hp
    obtain ⟨_, _, _, _, _, h1, h2, h3, _⟩ := purchaseWithEscrow_spec hp
    exact ⟨h1, h2, h3⟩
  · intro env escrowValid msgValue tokenBal hasMinter now investor paymentAmount
      paymentToken hv
    cases hr : purchaseWithEscrow s env escrowValid msgValue tokenBal hasMinter now
        investor paymentAmount paymentToken with
    | none => rfl
    | some r =>
        obtain ⟨_, _, _, _, htok, h1, h2, h3, _⟩ := purchaseWithEscrow_spec hr
        rw [htok] at h1 h2 h3
        omega

/-- Witness for the amended C4: the successful 50-token demo purchase obeys
all three direct-path limits, and a 5-token attempt from the same follow-up
state is rejected because `5 < minPurchase`. -/
theorem sale_limit_checks_witness :
    purchase saleDemo0 env0 1 50 0 1000000 true 0 0 50 = some saleDemo1 ∧
    (saleDemo0.minPurchase ≤ 50 ∧ saleDemo0.purchaseOf 1 + 50 ≤ saleDemo0.maxPurchase ∧
      saleDemo0.totalPurchases + 50 ≤ saleDemo0.hardcap) ∧
    ((5 : Nat) < saleDemo1.1.minPurchase ∨
      saleDemo1.1.maxPurchase < saleDemo1.1.purchaseOf 1 + 5 ∨
      saleDemo1.1.hardcap < saleDemo1.1.totalPurchases + 5) ∧
    purchase saleDemo1.1 env0 1 5 0 1000000 true 0 0 5 = none :=
  ⟨rfl,
   (sale_limit_checks saleDemo0).1 env0 1 50 0 1000000 true 0 0 50 saleDemo1 rfl,
   Or.inl (by decide),
   (sale_limit_checks saleDemo1.1).2.1 env0 1 5 0 1000000 true 0 0 5
     (Or.inl (by decide))⟩

/-- Counterexample for C8: both whitelist removal operations accept a batch
of 101 entries, strictly larger than `MAX_WHITELIST_BATCH = 100` — only the
two add operations carry the batch-size check. -/
theorem whitelist_batch_counterexample :
    MAX_WHITELIST_BATCH < (List.range 101).length ∧
    (removeFromUserWhitelist saleDemo0 9 (List.range 101)).isSome = true ∧
    (removeFromTokenWhitelist saleDemo0 9 (List.range 101)).isSome = true := by
  refine ⟨by decide, rfl, rfl⟩

/-- C8 (amended): `addToUserWhitelist` and `addToTokenWhitelist` reject
every batch larger than `MAX_WHITELIST_BATCH` (100) for any caller, while
`removeFromUserWhitelist` and `removeFromTokenWhitelist` have no batch-size
check at all: called by the owner they succeed on a batch of any size. -/
theorem whitelist_batch_cap (s : Storage) (sender : Nat) :
    (∀ users, MAX_WHITELIST_BATCH < users.length →
        addToUserWhitelist s sender users = none) ∧
    (∀ tokens, MAX_WHITELIST_BATCH < tokens.length →
        addToTokenWhitelist s sender tokens = none) ∧
    (∀ users, sender = s.owner →
        (removeFromUserWhitelist s sender users).isSome = true) ∧
    (∀ tokens, sender = s.owner →
        (removeFromTokenWhitelist s sender tokens).isSome = true) := by
  refine ⟨?_, ?_, ?_, ?_⟩
  · intro users hlen
    unfold addToUserWhitelist
    split <;> simp [hlen]
  · intro tokens hlen
    unfold addToTokenWhitelist
    split <;> simp [hlen]
  · intro users howner
    unfold removeFromUserWhitelist
    rw [if_pos howner]
    rfl
  · intro tokens howner
    unfold removeFromTokenWhitelist
    rw [if_pos howner]
    rfl

/-- Witness for the amended C8: a 101-entry batch is rejected by the add
operation and accepted by the remove operation for the owner (`9`). -/
theorem whitelist_batch_cap_witness :
    addToUserWhitelist saleDemo0 9 (List.range 101) = none ∧
    (removeFromUserWhitelist saleDemo0 9 (List.range 101)).isSome = true :=
  ⟨(whitelist_batch_cap saleDemo0 9).1 (List.range 101) (by decide),
   (whitelist_batch_cap saleDemo0 9).2.2.1 (List.range 101) rfl⟩

end Sale
